import Mathlib

/-!
Verification of the tab-lifecycle behaviour of the obsidian-ide-preview
plugin.  The source tree (src/main.ts) contains three near-duplicate
implementation variants of the plugin:

* variant 1 (src/main.ts lines 1-729): `IDEStylePreviewPlugin`, which keeps
  the preview tabs in a plugin-wide `WeakSet previewLeaves` and patches
  `WorkspaceLeaf.openFile`;
* variant 2 (src/main.ts lines 730-1763): `PreviewModePlugin`, which keeps a
  per-panel map `previewByPanel : Map<LeafParent, WorkspaceLeaf>` and drives
  opens from intercepted DOM clicks (`openFileLogic`,
  `handleSingleClickInPanel`, `handleDoubleClickInPanel`), together with the
  file-creation hijack recovery (`handleFileCreation`, `restoreHijackedTab`);
* variant 3 (src/main.ts lines 1764-3340): a debug-heavy revision of
  variant 1 with `determineOpenIntent`, `newlyCreatedFiles` tracking and a
  modified duplicate check in `handleOpenFile`.

The embedding below models each variant's state as an explicit record.
Workspace leaves (tabs) are identified by natural-number ids (the source
holds opaque object references; object identity becomes id equality, which
is faithful on states whose leaf ids are distinct).  DOM styling
(`is-preview-tab` CSS class on the tab header) is modelled as the set
`cssMarked` of leaf ids carrying the marker.  Host-API failure branches
(`getPanelParent` returning null, `createLeafInParent` throwing) are
outside the model: panels are always resolvable and tab creation always
succeeds, matching the normal-operation behaviour the claims describe.
-/

/-- Tab state, src/main.ts line 16 / 1794: `type TabState = "empty" | "preview" | "permanent"`. -/
inductive TabState where
  | empty
  | preview
  | permanent
deriving DecidableEq, Repr

/-- Open intent, src/main.ts line 22 / 1800: `type OpenIntent = "browse" | "create"`. -/
inductive OpenIntent where
  | browse
  | create
deriving DecidableEq, Repr

/-- A file (`TFile`): its vault path, basename-with-extension (`file.name`),
extension, and whether the host's daily-notes plugin recognises it as a daily
note (`isDailyNote`, src/main.ts lines 3238-3253; that check reads host
plugin settings and uses moment parsing, so it enters the model as an input
bit). -/
structure VFile where
  path : String
  name : String
  extension : String
  isDaily : Bool
deriving DecidableEq, Repr

/-- The open-state metadata passed to `openFile`: whether
`openState?.eState?.rename === "all"` and whether
`openState?.state?.mode === "source"`. -/
structure OpenMeta where
  renameAll : Bool
  modeSource : Bool
deriving DecidableEq, Repr

/-- Insert an id into a set-as-list (models `WeakSet.add` / `classList.add`:
no duplicate is created). -/
def insertN (l : List Nat) (a : Nat) : List Nat :=
  if a ∈ l then l else a :: l

/-- Remove an id from a set-as-list (models `WeakSet.delete` /
`classList.remove`). -/
def removeN (l : List Nat) (a : Nat) : List Nat :=
  l.filter (fun x => decide (x ≠ a))

namespace IDE

/-- A leaf (tab) of the engine variants 1 and 3: its id and the path of the
file its view holds (`none` models the "empty" view type). -/
structure ELeaf where
  id : Nat
  content : Option String
deriving DecidableEq, Repr

/-- Plugin + workspace state for variants 1 and 3.  `leaves` is the tab
group the patched `openFile` call operates in (the receiver leaf's
`parent.children`); `previewLeaves` models the `WeakSet` of preview tabs;
`cssMarked` the set of tab headers carrying the preview CSS class;
`isCtrlClickPending` the Ctrl/Cmd-click flag; `newlyCreatedFiles` the
variant-3 set of freshly created paths. -/
structure ESt where
  leaves : List ELeaf
  previewLeaves : List Nat
  cssMarked : List Nat
  isCtrlClickPending : Bool
  activeId : Nat
  nextId : Nat
  newlyCreatedFiles : List String
deriving DecidableEq, Repr

/-- Daily-note file-name pattern of variant 1,
src/main.ts line 55: `/^\d\x7b4\x7d-\d\x7b2\x7d-\d\x7b2\x7d\.md$/`. -/
def dailyNotePattern (name : String) : Bool :=
  match name.toList with
  | [y1, y2, y3, y4, h1, m1, m2, h2, d1, d2, p, me, de] =>
    y1.isDigit && y2.isDigit && y3.isDigit && y4.isDigit && h1 == '-' &&
    m1.isDigit && m2.isDigit && h2 == '-' && d1.isDigit && d2.isDigit &&
    p == '.' && me == 'm' && de == 'd'
  | _ => false

/-- Variant 1 intent classifier, src/main.ts lines 205-219. -/
def determineOpenIntentV1 (file : VFile) (os : OpenMeta) : OpenIntent :=
  if os.renameAll then .create
  else if os.modeSource && dailyNotePattern file.name then .create
  else .browse

/-- Variant 3 intent classifier, src/main.ts lines 2423-2442. -/
def determineOpenIntentV3 (file : VFile) (os : OpenMeta) : OpenIntent :=
  if os.renameAll then .create
  else if file.extension = "canvas" ∨ file.extension = "pdf" then .browse
  else if os.modeSource && file.isDaily then .create
  else .browse

/-- Tab state classifier of variants 1 and 3, src/main.ts lines 149-153 /
2377-2381: empty view type wins, then `previewLeaves` membership. -/
def getTabState (s : ESt) (l : ELeaf) : TabState :=
  if l.content = none then .empty
  else if l.id ∈ s.previewLeaves then .preview
  else .permanent

/-- `updateTabStyle`, src/main.ts lines 618-627: add or remove the preview
CSS class on the tab header according to current `previewLeaves` membership. -/
def updateTabStyle (s : ESt) (lid : Nat) : ESt :=
  if lid ∈ s.previewLeaves then { s with cssMarked := insertN s.cssMarked lid }
  else { s with cssMarked := removeN s.cssMarked lid }

/-- `setAsPreview`, src/main.ts lines 155-158. -/
def setAsPreview (s : ESt) (lid : Nat) : ESt :=
  updateTabStyle { s with previewLeaves := insertN s.previewLeaves lid } lid

/-- `setAsPermanent`, src/main.ts lines 160-163. -/
def setAsPermanent (s : ESt) (lid : Nat) : ESt :=
  updateTabStyle { s with previewLeaves := removeN s.previewLeaves lid } lid

/-- `promoteToPermament`, src/main.ts lines 165-170: a guarded demotion that
only acts on members of `previewLeaves`. -/
def promoteToPermament (s : ESt) (lid : Nat) : ESt :=
  if lid ∈ s.previewLeaves then setAsPermanent s lid else s

/-- `consumeCtrlClickFlag`, src/main.ts lines 722-728: returns the pending
flag and resets it. -/
def consumeCtrlClickFlag (s : ESt) : Bool × ESt :=
  (s.isCtrlClickPending, { s with isCtrlClickPending := false })

/-- The Ctrl/Cmd-click detector, src/main.ts lines 482-486 / 2887-2891: a
modifier click on any file element raises the plugin-wide flag.  The handler
receives only the two facts it tests (modifier held, target is a file
element); which file or panel was clicked plays no part. -/
def ctrlClickHandler (s : ESt) (hasModifier isFileElement : Bool) : ESt :=
  if hasModifier && isFileElement then { s with isCtrlClickPending := true } else s

/-- `getSiblingLeaves`, src/main.ts lines 259-265: the other tabs of the
receiver's tab group. -/
def getSiblingLeaves (s : ESt) (l : ELeaf) : List ELeaf :=
  s.leaves.filter (fun x => decide (x.id ≠ l.id))

/-- `findLeafWithFile`, src/main.ts lines 228-240. -/
def findLeafWithFile (s : ESt) (filePath : String) (l : ELeaf) : Option ELeaf :=
  (getSiblingLeaves s l).find? (fun x => decide (x.content = some filePath))

/-- `findPreviewLeaf`, src/main.ts lines 245-254. -/
def findPreviewLeaf (s : ESt) (l : ELeaf) : Option ELeaf :=
  (getSiblingLeaves s l).find? (fun x => decide (x.id ∈ s.previewLeaves))

/-- Models `await originalMethod.call(leaf, file, openState)`: the leaf's
view now holds the file. -/
def openFileIn (s : ESt) (lid : Nat) (filePath : String) : ESt :=
  { s with leaves := s.leaves.map (fun x => if x.id = lid then { x with content := some filePath } else x) }

/-- The outcome of a patched `openFile` call, for stating which branch of
`handleOpenFile` fired. -/
inductive OFAction where
  | sameFileSkip
  | focusedExisting (lid : Nat)
  | openedInCurrent (lid : Nat) (permanent : Bool)
  | reusedPreview (lid : Nat)
  | openedInNewTab (lid : Nat) (permanent : Bool)
deriving DecidableEq, Repr

/-- True exactly on the focus-and-stop outcome. -/
def OFAction.isFocus : OFAction → Bool
  | .focusedExisting _ => true
  | _ => false

/-- `openInNewTab`, src/main.ts lines 354-375 / 2620-2646: create a tab in
the group (`getLeaf("tab")`), open the file there, mark it, focus it. -/
def openInNewTab (s : ESt) (f : VFile) (asPermanent : Bool) : ESt × OFAction :=
  let nid := s.nextId
  let s := { s with leaves := s.leaves ++ [⟨nid, none⟩], nextId := s.nextId + 1 }
  let s := openFileIn s nid f.path
  let s := if asPermanent then setAsPermanent s nid else setAsPreview s nid
  ({ s with activeId := nid }, .openedInNewTab nid asPermanent)

/-- The shared tail of `handleOpenFile` after the duplicate check
(src/main.ts lines 318-351, identical at lines 2575-2617): permanent-intent
path, preview-reuse path, new-preview-tab path, open-in-place path. -/
def openFileCore (s : ESt) (l : ELeaf) (f : VFile) (currentState : TabState)
    (shouldBePermanent : Bool) : ESt × OFAction :=
  if shouldBePermanent then
    if currentState = TabState.permanent ∨ currentState = TabState.preview then
      openInNewTab s f true
    else
      let s := openFileIn s l.id f.path
      (setAsPermanent s l.id, .openedInCurrent l.id true)
  else
    match findPreviewLeaf s l with
    | some pl =>
      let s := openFileIn s pl.id f.path
      ({ s with activeId := pl.id }, .reusedPreview pl.id)
    | none =>
      if currentState = TabState.permanent then openInNewTab s f false
      else
        let s := openFileIn s l.id f.path
        (setAsPreview s l.id, .openedInCurrent l.id false)

/-- Variant 1 `handleOpenFile`, src/main.ts lines 290-352.  The duplicate
check requires browse intent and no pending modifier click. -/
def handleOpenFileV1 (s : ESt) (l : ELeaf) (f : VFile) (os : OpenMeta) : ESt × OFAction :=
  let currentState := getTabState s l
  let intent := determineOpenIntentV1 f os
  let c := consumeCtrlClickFlag s
  let isCtrlClick := c.1
  let s := c.2
  let shouldBePermanent := intent = OpenIntent.create ∨ isCtrlClick = true
  if l.content = some f.path then (s, .sameFileSkip)
  else
    match findLeafWithFile s f.path l with
    | some ex =>
      if intent = OpenIntent.browse ∧ isCtrlClick = false then
        ({ s with activeId := ex.id }, .focusedExisting ex.id)
      else openFileCore s l f currentState (decide shouldBePermanent)
    | none => openFileCore s l f currentState (decide shouldBePermanent)

/-- The variant-3 `handleOpenFile` preamble, src/main.ts lines 2545-2552:
a freshly created file is removed from `newlyCreatedFiles` and, unless it
is a daily note, its open metadata gains the rename-on-open signal. -/
def injectRenameForNewFile (s : ESt) (f : VFile) (os : OpenMeta) : ESt × OpenMeta :=
  if f.path ∈ s.newlyCreatedFiles then
    ({ s with newlyCreatedFiles := s.newlyCreatedFiles.filter (fun x => decide (x ≠ f.path)) },
     if f.isDaily then os else { os with renameAll := true })
  else (s, os)

/-- The body of variant 3's `handleOpenFile` after the new-file preamble:
the duplicate check (src/main.ts lines 2567-2573) tests only the modifier
flag, not the intent. -/
def handleOpenFileV3Core (s : ESt) (l : ELeaf) (f : VFile) (os : OpenMeta) : ESt × OFAction :=
  let currentState := getTabState s l
  let intent := determineOpenIntentV3 f os
  let c := consumeCtrlClickFlag s
  let isCtrlClick := c.1
  let s := c.2
  let shouldBePermanent := intent = OpenIntent.create ∨ isCtrlClick = true
  if l.content = some f.path then (s, .sameFileSkip)
  else
    match findLeafWithFile s f.path l with
    | some ex =>
      if isCtrlClick = false then
        ({ s with activeId := ex.id }, .focusedExisting ex.id)
      else openFileCore s l f currentState (decide shouldBePermanent)
    | none => openFileCore s l f currentState (decide shouldBePermanent)

/-- Variant 3 `handleOpenFile`, src/main.ts lines 2533-2618: the new-file
preamble followed by the shared open logic with the weakened duplicate
check. -/
def handleOpenFileV3 (s : ESt) (l : ELeaf) (f : VFile) (os : OpenMeta) : ESt × OFAction :=
  let p := injectRenameForNewFile s f os
  handleOpenFileV3Core p.1 l f p.2

end IDE

namespace PM

/-- A leaf (tab) of variant 2: id, owning panel (tab group, the
`leaf.parent` of `getPanelParent`), and the open file (`none` is the empty
view type). -/
structure Leaf where
  id : Nat
  panel : Nat
  content : Option String
deriving DecidableEq, Repr

/-- `PreviewModeSettings`, src/main.ts lines 764-770. -/
structure Settings where
  useItalicTitle : Bool
  reuseEmptyTab : Bool
  promoteOldPreview : Bool
  jumpToDuplicate : Bool
  openNewTabAtEnd : Bool
deriving DecidableEq, Repr

/-- `DEFAULT_SETTINGS`, src/main.ts lines 772-778. -/
def DEFAULT_SETTINGS : Settings :=
  { useItalicTitle := true
    reuseEmptyTab := true
    promoteOldPreview := true
    jumpToDuplicate := true
    openNewTabAtEnd := false }

/-- `fileCreationState` when a creation snapshot is pending, src/main.ts
lines 799-807: the created file's path, the leaf active at creation time,
and the file previously open in that leaf. -/
structure Snapshot where
  newFile : String
  hijackedLeaf : Nat
  oldFile : Option String
deriving DecidableEq, Repr

/-- Plugin + workspace state of variant 2.  `previewByPanel` models the
`Map<LeafParent, WorkspaceLeaf>` as an association list from panel id to
leaf id (lookup takes the first entry for a key; `set` replaces the key's
entries); `creation` models `fileCreationState` (`none` when no snapshot is
pending). -/
structure PState where
  leaves : List Leaf
  previewByPanel : List (Nat × Nat)
  cssMarked : List Nat
  activeId : Nat
  nextId : Nat
  creation : Option Snapshot
  settings : Settings
deriving DecidableEq, Repr

/-- Association-list lookup for `previewByPanel.get`. -/
def lookupPB : List (Nat × Nat) → Nat → Option Nat
  | [], _ => none
  | e :: rest, p => if e.1 = p then some e.2 else lookupPB rest p

/-- Association-list key removal for `previewByPanel.delete`. -/
def erasePB (m : List (Nat × Nat)) (p : Nat) : List (Nat × Nat) :=
  m.filter (fun e => decide (e.1 ≠ p))

/-- Resolve a leaf id to the live leaf, if present. -/
def findLeaf (s : PState) (lid : Nat) : Option Leaf :=
  s.leaves.find? (fun l => decide (l.id = lid))

/-- `isLeafStillPresent`, src/main.ts lines 1621-1627. -/
def isLeafStillPresent (s : PState) (lid : Nat) : Prop :=
  ∃ l ∈ s.leaves, l.id = lid

instance (s : PState) (lid : Nat) : Decidable (isLeafStillPresent s lid) := by
  unfold isLeafStillPresent; infer_instance

/-- The tabs of one panel, in tab-bar order (`parent.children`). -/
def panelChildren (s : PState) (p : Nat) : List Leaf :=
  s.leaves.filter (fun l => decide (l.panel = p))

/-- `isPanelPreviewLeaf`, src/main.ts lines 1606-1611: the leaf is the
registered preview of its own panel. -/
def isPanelPreviewLeaf (s : PState) (l : Leaf) : Bool :=
  decide (lookupPB s.previewByPanel l.panel = some l.id)

/-- `getPreviewLeafForPanel`, src/main.ts lines 1596-1604: return the
panel's registered preview leaf if it is still open, otherwise evict the
stale registry entry and return nothing. -/
def getPreviewLeafForPanel (s : PState) (p : Nat) : PState × Option Leaf :=
  match lookupPB s.previewByPanel p with
  | none => (s, none)
  | some lid =>
    match findLeaf s lid with
    | some l => (s, some l)
    | none => ({ s with previewByPanel := erasePB s.previewByPanel p }, none)

/-- `markAsPreview`, src/main.ts lines 1652-1669: record the leaf as its
panel's preview (replacing the panel's previous entry) and set or clear the
italic marker per the `useItalicTitle` setting.  (The source's
panel-unresolvable fallback is outside the model.) -/
def markAsPreview (s : PState) (l : Leaf) : PState :=
  let s := { s with previewByPanel := (l.panel, l.id) :: erasePB s.previewByPanel l.panel }
  if s.settings.useItalicTitle then { s with cssMarked := insertN s.cssMarked l.id }
  else { s with cssMarked := removeN s.cssMarked l.id }

/-- `markAsPermanent`, src/main.ts lines 1671-1684: clear the panel's
registry entry only if it currently points at this leaf, and strip the
italic marker. -/
def markAsPermanent (s : PState) (l : Leaf) : PState :=
  let s :=
    if lookupPB s.previewByPanel l.panel = some l.id then
      { s with previewByPanel := erasePB s.previewByPanel l.panel }
    else s
  { s with cssMarked := removeN s.cssMarked l.id }

/-- `cleanupPreviewMap`, src/main.ts lines 1613-1619. -/
def cleanupPreviewMap (s : PState) : PState :=
  { s with previewByPanel := s.previewByPanel.filter (fun e => decide (isLeafStillPresent s e.2)) }

/-- Models `await leaf.openFile(file)` on a leaf of this variant. -/
def openFileInLeaf (s : PState) (lid : Nat) (filePath : String) : PState :=
  { s with leaves := s.leaves.map (fun x => if x.id = lid then { x with content := some filePath } else x) }

/-- Models `this.app.workspace.setActiveLeaf(leaf, focus)`. -/
def setActive (s : PState) (lid : Nat) : PState :=
  { s with activeId := lid }

/-- Insert a leaf so that it lands at the given index of its panel's child
sequence (an index at or beyond the end appends); models
`workspace.createLeafInParent(parent, index)`'s placement. -/
def insertAtPanelIndex : List Leaf → Nat → Nat → Leaf → List Leaf
  | ls, _, 0, x => x :: ls
  | [], _, _ + 1, x => [x]
  | l :: rest, p, i + 1, x =>
    if l.panel = p then l :: insertAtPanelIndex rest p i x
    else l :: insertAtPanelIndex rest p (i + 1) x

/-- `createNewTabInSamePanel`, src/main.ts lines 1520-1539: a fresh empty
leaf next to the active leaf (or at the end of the panel with the
`openNewTabAtEnd` setting).  The `createLeafInParent` failure fallback is
outside the model. -/
def createNewTabInSamePanel (s : PState) (active : Leaf) : PState × Leaf :=
  let children := panelChildren s active.panel
  let nextToActive :=
    match children.findIdx? (fun l => decide (l.id = active.id)) with
    | some i => i + 1
    | none => 0
  let index := if s.settings.openNewTabAtEnd then children.length else nextToActive
  let nl : Leaf := ⟨s.nextId, active.panel, none⟩
  ({ s with leaves := insertAtPanelIndex s.leaves active.panel index nl, nextId := s.nextId + 1 }, nl)

/-- `findLeafWithFileInPanel`, src/main.ts lines 1541-1554. -/
def findLeafWithFileInPanel (s : PState) (filePath : String) (p : Nat) : Option Leaf :=
  s.leaves.find? (fun l => decide (l.content = some filePath ∧ l.panel = p))

/-- `handleSingleClickInPanel`, src/main.ts lines 1463-1518: Case A reuse
the active leaf if it is the panel's preview, Case B reuse an empty active
tab (promoting or reusing the old preview per `promoteOldPreview`), Case C
reuse the live preview leaf, Case D open a fresh preview tab.  (The
panel-unresolvable fallback at the top is outside the model.) -/
def handleSingleClickInPanel (s0 : PState) (filePath : String) (active : Leaf) : PState :=
  let pr := getPreviewLeafForPanel s0 active.panel
  let s := pr.1
  let canReuseEmpty := s.settings.reuseEmptyTab && active.content.isNone
  match pr.2 with
  | some pv =>
    if pv.id = active.id then
      let s := openFileInLeaf s active.id filePath
      let s := setActive s active.id
      markAsPreview s active
    else if canReuseEmpty then
      if s.settings.promoteOldPreview then
        let s := markAsPermanent s pv
        let s := openFileInLeaf s active.id filePath
        let s := setActive s active.id
        markAsPreview s active
      else
        let s := openFileInLeaf s pv.id filePath
        let s := setActive s pv.id
        markAsPreview s pv
    else
      let s := openFileInLeaf s pv.id filePath
      let s := setActive s pv.id
      markAsPreview s pv
  | none =>
    if canReuseEmpty then
      let s := openFileInLeaf s active.id filePath
      let s := setActive s active.id
      markAsPreview s active
    else
      let pr2 := createNewTabInSamePanel s active
      let s := openFileInLeaf pr2.1 pr2.2.id filePath
      let s := setActive s pr2.2.id
      markAsPreview s pr2.2

/-- `handleDoubleClickInPanel`, src/main.ts lines 1441-1461. -/
def handleDoubleClickInPanel (s0 : PState) (filePath : String) (active : Leaf) : PState :=
  let pr := getPreviewLeafForPanel s0 active.panel
  let s := pr.1
  match pr.2 with
  | some pv =>
    if pv.content = some filePath then
      let s := markAsPermanent s pv
      setActive s pv.id
    else
      let pr2 := createNewTabInSamePanel s active
      let s := openFileInLeaf pr2.1 pr2.2.id filePath
      let s := setActive s pr2.2.id
      markAsPermanent s pr2.2
  | none =>
    let pr2 := createNewTabInSamePanel s active
    let s := openFileInLeaf pr2.1 pr2.2.id filePath
    let s := setActive s pr2.2.id
    markAsPermanent s pr2.2

/-- `openFileLogic`, src/main.ts lines 1405-1439: duplicate jump within the
panel, then single- or double-click handling.  (The panel-unresolvable
fallback is outside the model; the base leaf always resolves.) -/
def openFileLogic (s : PState) (filePath : String) (isDoubleClick : Bool) (baseId : Nat) : PState :=
  match findLeaf s baseId with
  | none => s
  | some active =>
    let dup :=
      if s.settings.jumpToDuplicate then findLeafWithFileInPanel s filePath active.panel
      else none
    match dup with
    | some ex =>
      let s := setActive s ex.id
      if isDoubleClick ∧ isPanelPreviewLeaf s ex = true then markAsPermanent s ex else s
    | none =>
      if isDoubleClick then handleDoubleClickInPanel s filePath active
      else handleSingleClickInPanel s filePath active

/-- A single-click browse open issued from the active leaf's panel
(`handleClick` → `openFileLogic(file, false, baseLeaf)`; after an open the
active leaf is also the remembered `lastMarkdownLeaf`, so it is the base
leaf of the next navigation click). -/
def browseOpen (s : PState) (filePath : String) : PState :=
  openFileLogic s filePath false s.activeId

/-- `ensureTitleEditAfterCreate`, src/main.ts lines 1078-1098: if the target
leaf holds the created file, focus it (the rename command and inline-title
selection are UI effects outside the model). -/
def ensureTitleEditAfterCreate (s : PState) (targetId : Nat) (created : String) : PState :=
  match findLeaf s targetId with
  | some t => if t.content = some created then setActive s t.id else s
  | none => s

/-- `restoreHijackedTab`, src/main.ts lines 1145-1187: recreate a tab at
the hijacked leaf's position holding the old file, mark it permanent, then
mark the hijacked leaf permanent and focus it. -/
def restoreHijackedTab (s : PState) (hijackedId : Nat) (oldFile newFile : String) : PState :=
  match findLeaf s hijackedId with
  | none => s
  | some hj =>
    let children := panelChildren s hj.panel
    match children.findIdx? (fun l => decide (l.id = hijackedId)) with
    | none =>
      let s := markAsPermanent s hj
      ensureTitleEditAfterCreate s hj.id newFile
    | some idx =>
      let restored : Leaf := ⟨s.nextId, hj.panel, none⟩
      let s := { s with leaves := insertAtPanelIndex s.leaves hj.panel idx restored,
                        nextId := s.nextId + 1 }
      let s := openFileInLeaf s restored.id oldFile
      let s := markAsPermanent s restored
      let s := setActive s hj.id
      let s := markAsPermanent s hj
      ensureTitleEditAfterCreate s hj.id newFile

/-- `handleFileCreation`, src/main.ts lines 1100-1143: case 1 the creation
landed in a different leaf than the snapshot's; case 2-1 same leaf but
nothing to restore; case 2-2 hijack detected, run the recovery. -/
def handleFileCreation (s : PState) (newFile : String) (currentId : Nat)
    (hijacked : Option Nat) (oldFile : Option String) : PState :=
  let hijackedSame := match hijacked with | some h => decide (currentId = h) | none => false
  if hijackedSame then
    match oldFile with
    | none =>
      match findLeaf s currentId with
      | some cur =>
        let s := markAsPermanent s cur
        ensureTitleEditAfterCreate s cur.id newFile
      | none => s
    | some op =>
      if op = newFile then
        match findLeaf s currentId with
        | some cur =>
          let s := markAsPermanent s cur
          ensureTitleEditAfterCreate s cur.id newFile
        | none => s
      else restoreHijackedTab s currentId op newFile
  else
    match findLeaf s currentId with
    | none => s
    | some cur =>
      let s := markAsPermanent s cur
      let s := ensureTitleEditAfterCreate s cur.id newFile
      let pr := getPreviewLeafForPanel s cur.panel
      let s := pr.1
      match pr.2 with
      | some pv =>
        if s.settings.promoteOldPreview ∧ pv.id ≠ cur.id ∧ pv.panel = cur.panel then
          markAsPermanent s pv
        else s
      | none => s

/-- The `vault.on("create")` listener, src/main.ts lines 916-930: snapshot
the created markdown file, the active leaf, and that leaf's current file. -/
def onVaultCreate (s : PState) (filePath : String) (extension : String) : PState :=
  if extension = "md" then
    let snap : Snapshot := ⟨filePath, s.activeId, (findLeaf s s.activeId).bind (fun l => l.content)⟩
    { s with creation := some snap }
  else s

/-- The `workspace.on("file-open")` listener, src/main.ts lines 932-949:
with a pending snapshot, a mismatching (or missing) opened file discards the
snapshot unused; a matching one consumes it and runs `handleFileCreation`. -/
def fileOpenHandler (s : PState) (file : Option String) : PState :=
  match s.creation with
  | none => s
  | some snap =>
    match file with
    | none => { s with creation := none }
    | some p =>
      if p ≠ snap.newFile then { s with creation := none }
      else
        let s := { s with creation := none }
        handleFileCreation s snap.newFile s.activeId (some snap.hijackedLeaf) snap.oldFile

/-- Variant 2 tab-state classification assembled from the cited sources:
the empty-view test and fall-through of `getTabState` (src/main.ts lines
149-153) over the panel registry membership of `isPanelPreviewLeaf`
(src/main.ts lines 1606-1611).  A pure function of the state: it returns a
value and no updated state. -/
def getTabState (s : PState) (l : Leaf) : TabState :=
  if l.content = none then .empty
  else if isPanelPreviewLeaf s l then .preview
  else .permanent

/-- The plugin operations named by the per-panel invariant claim: browse
open, create (double-click/committed) open, promotion, tab close (host
detach; this variant installs no detach hook), layout change. -/
inductive POp where
  | browse (filePath : String)
  | createOpen (filePath : String)
  | promote (lid : Nat)
  | closeTab (lid : Nat)
  | layoutChange
deriving DecidableEq, Repr

/-- Run one plugin operation. -/
def applyOp : POp → PState → PState
  | .browse f, s => openFileLogic s f false s.activeId
  | .createOpen f, s => openFileLogic s f true s.activeId
  | .promote lid, s =>
    match findLeaf s lid with
    | some l => markAsPermanent s l
    | none => s
  | .closeTab lid, s => { s with leaves := s.leaves.filter (fun l => decide (l.id ≠ lid)) }
  | .layoutChange, s => cleanupPreviewMap s

/-- Structural well-formedness of a workspace state: leaf ids are distinct,
and ids (of leaves and of registry entries) stay below the id counter. -/
def WF (s : PState) : Prop :=
  (s.leaves.map (fun l => l.id)).Nodup
  ∧ (∀ l ∈ s.leaves, l.id < s.nextId)
  ∧ (∀ e ∈ s.previewByPanel, e.2 < s.nextId)

instance (s : PState) : Decidable (WF s) := by
  unfold WF; infer_instance

/-- Registry entries point into their own panel: whenever a registry entry's
leaf is live, that leaf belongs to the entry's panel.  Maintained because
`markAsPreview` always records `(l.panel, l.id)`. -/
def RegistryOK (s : PState) : Prop :=
  ∀ e ∈ s.previewByPanel, ∀ l ∈ s.leaves, l.id = e.2 → l.panel = e.1

instance (s : PState) : Decidable (RegistryOK s) := by
  unfold RegistryOK; infer_instance

/-- How many tabs of panel `p` are in the preview state. -/
def previewCount (s : PState) (p : Nat) : Nat :=
  ((panelChildren s p).filter (fun l => isPanelPreviewLeaf s l)).length

end PM

/-! ### Helper lemmas about the list primitives -/

theorem mem_insertN {l : List Nat} {a b : Nat} : b ∈ insertN l a ↔ (b = a ∨ b ∈ l) := by
  unfold insertN
  split
  · constructor
    · exact fun h => Or.inr h
    · rintro (rfl | h) <;> assumption
  · simp [or_comm]

theorem mem_removeN {l : List Nat} {a b : Nat} : b ∈ removeN l a ↔ (b ∈ l ∧ b ≠ a) := by
  simp [removeN]

/-! ### C5: the intent classifier's decision order -/

/-- The intent classifier exactly as claim C5 words it: (1) rename-on-open
signal yields create; (2) read-only (pdf) or freeform-canvas type with no
rename signal yields browse; (3) a file matching the recurring daily-note
pattern yields create; (4) otherwise browse.  Written from the claim for
comparison against the source's `determineOpenIntent`. -/
def intentPerClaimC5 (f : VFile) (os : OpenMeta) : OpenIntent :=
  if os.renameAll then .create
  else if f.extension = "canvas" ∨ f.extension = "pdf" then .browse
  else if f.isDaily then .create
  else .browse

/-- C5 counterexample: a recognised daily note opened with no rename signal
and with a non-source editing mode.  The claim's rule (3) fires and yields
`create`, but `determineOpenIntent` (src/main.ts lines 2423-2442)
additionally requires `openState?.state?.mode === "source"` before its
daily-note rule, so the code yields `browse`. -/
theorem c5_counterexample :
    intentPerClaimC5 ⟨"d.md", "2024-01-01.md", "md", true⟩ ⟨false, false⟩ = OpenIntent.create
    ∧ IDE.determineOpenIntentV3 ⟨"d.md", "2024-01-01.md", "md", true⟩ ⟨false, false⟩ =
        OpenIntent.browse := by
  decide

/-- C5 (amended): the intent classifier decides by first matching rule in
order: (1) an explicit rename-on-open signal yields create; (2) a read-only
(pdf) or freeform-canvas type with no rename signal yields browse; (3) a
recurring daily note whose open request carries source editing mode yields
create; (4) otherwise browse. -/
theorem c5_intent_decision_order (f : VFile) (os : OpenMeta) :
    (os.renameAll = true → IDE.determineOpenIntentV3 f os = OpenIntent.create)
    ∧ (os.renameAll = false → (f.extension = "canvas" ∨ f.extension = "pdf") →
        IDE.determineOpenIntentV3 f os = OpenIntent.browse)
    ∧ (os.renameAll = false → f.extension ≠ "canvas" → f.extension ≠ "pdf" →
        os.modeSource = true → f.isDaily = true →
        IDE.determineOpenIntentV3 f os = OpenIntent.create)
    ∧ (os.renameAll = false → f.extension ≠ "canvas" → f.extension ≠ "pdf" →
        (os.modeSource = false ∨ f.isDaily = false) →
        IDE.determineOpenIntentV3 f os = OpenIntent.browse) := by
  unfold IDE.determineOpenIntentV3
  refine ⟨?_, ?_, ?_, ?_⟩
  · intro h; simp [h]
  · intro h hext; simp [h, hext]
  · intro h h1 h2 h3 h4; simp [h, h1, h2, h3, h4]
  · intro h h1 h2 h3
    rcases h3 with h3 | h3 <;> simp [h, h1, h2, h3]

/-- C5 witness: the amended rule (3) applied at a concrete daily note opened
in source mode. -/
theorem c5_witness :
    IDE.determineOpenIntentV3 ⟨"d.md", "2024-01-01.md", "md", true⟩ ⟨false, true⟩ =
      OpenIntent.create :=
  (c5_intent_decision_order ⟨"d.md", "2024-01-01.md", "md", true⟩ ⟨false, true⟩).2.2.1
    rfl (by decide) (by decide) rfl rfl

/-! ### C8: the tab-state classifier -/

/-- C8: for every tab the classifier returns `empty` whenever the tab's view
type is the designated no-document type (taking precedence over a preview
registration); otherwise it returns `preview` exactly when the tab is its
panel's registered preview, and `permanent` in all remaining cases.  It is a
plain function of the state: no state is changed or returned. -/
theorem c8_tab_state_classifier (s : PM.PState) (l : PM.Leaf) :
    (l.content = none → PM.getTabState s l = TabState.empty)
    ∧ (l.content ≠ none →
        (PM.getTabState s l = TabState.preview ↔ PM.isPanelPreviewLeaf s l = true))
    ∧ (PM.getTabState s l = TabState.permanent ↔
        (l.content ≠ none ∧ PM.isPanelPreviewLeaf s l = false)) := by
  unfold PM.getTabState
  by_cases hc : l.content = none
  · simp [hc]
  · by_cases hp : PM.isPanelPreviewLeaf s l = true
    · simp [hc, hp]
    · simp only [Bool.not_eq_true] at hp
      simp [hc, hp]

/-- C8 witness: an empty-view tab that is still registered as the panel
preview classifies as `empty`; a registered non-empty tab as `preview`; an
unregistered non-empty tab as `permanent`. -/
theorem c8_witness :
    PM.getTabState ⟨[], [(0, 1)], [], 0, 9, none, PM.DEFAULT_SETTINGS⟩ ⟨1, 0, none⟩ =
        TabState.empty
    ∧ PM.getTabState ⟨[], [(0, 1)], [], 0, 9, none, PM.DEFAULT_SETTINGS⟩ ⟨1, 0, some "a.md"⟩ =
        TabState.preview
    ∧ PM.getTabState ⟨[], [(0, 1)], [], 0, 9, none, PM.DEFAULT_SETTINGS⟩ ⟨2, 0, some "a.md"⟩ =
        TabState.permanent :=
  ⟨(c8_tab_state_classifier _ _).1 rfl,
   ((c8_tab_state_classifier _ _).2.1 (by decide)).mpr (by decide),
   (c8_tab_state_classifier _ _).2.2.mpr ⟨by decide, by decide⟩⟩

/-! ### C9: promotion acts only on preview tabs and is idempotent -/

/-- C9: `promoteToPermament` is a no-op on tabs classified `permanent` and,
on any state whose preview set only holds tabs with a document (the
situation every plugin-made registration produces, since tabs are registered
right after a file lands in them), also on tabs classified `empty`; on a tab
classified `preview` it clears the preview registration and strips the
preview visual marker while touching no other tab and no tab content; and
running it twice equals running it once. -/
theorem c9_promote_only_previews (s : IDE.ESt) (l : IDE.ELeaf)
    (hl : l ∈ s.leaves)
    (hwf : ∀ x ∈ s.leaves, x.id ∈ s.previewLeaves → x.content ≠ none) :
    (IDE.getTabState s l = TabState.permanent → IDE.promoteToPermament s l.id = s)
    ∧ (IDE.getTabState s l = TabState.empty → IDE.promoteToPermament s l.id = s)
    ∧ (IDE.getTabState s l = TabState.preview →
        (l.id ∉ (IDE.promoteToPermament s l.id).previewLeaves
         ∧ l.id ∉ (IDE.promoteToPermament s l.id).cssMarked
         ∧ (IDE.promoteToPermament s l.id).leaves = s.leaves
         ∧ (IDE.promoteToPermament s l.id).activeId = s.activeId
         ∧ (∀ j, j ≠ l.id →
              ((j ∈ (IDE.promoteToPermament s l.id).previewLeaves ↔ j ∈ s.previewLeaves)
               ∧ (j ∈ (IDE.promoteToPermament s l.id).cssMarked ↔ j ∈ s.cssMarked)))))
    ∧ IDE.promoteToPermament (IDE.promoteToPermament s l.id) l.id =
        IDE.promoteToPermament s l.id := by
  refine ⟨?_, ?_, ?_, ?_⟩
  · intro h
    unfold IDE.getTabState at h
    by_cases hc : l.content = none
    · simp [hc] at h
    · by_cases hp : l.id ∈ s.previewLeaves
      · simp [hc, hp] at h
      · simp [IDE.promoteToPermament, hp]
  · intro h
    unfold IDE.getTabState at h
    by_cases hc : l.content = none
    · have hp : l.id ∉ s.previewLeaves := fun hmem => hwf l hl hmem hc
      simp [IDE.promoteToPermament, hp]
    · by_cases hp : l.id ∈ s.previewLeaves <;> simp [hc, hp] at h
  · intro h
    unfold IDE.getTabState at h
    by_cases hc : l.content = none
    · simp [hc] at h
    · by_cases hp : l.id ∈ s.previewLeaves
      · have hnotmem : l.id ∉ removeN s.previewLeaves l.id := by
          simp [mem_removeN]
        simp only [IDE.promoteToPermament, hp, if_pos, IDE.setAsPermanent,
          IDE.updateTabStyle, hnotmem, if_neg]
        refine ⟨by simpa using hnotmem, ?_, rfl, rfl, ?_⟩
        · simp [mem_removeN]
        · intro j hj
          simp [mem_removeN, hj]
      · simp [hc, hp] at h
  · by_cases hp : l.id ∈ s.previewLeaves
    · have hnotmem : l.id ∉ removeN s.previewLeaves l.id := by
        simp [mem_removeN]
      simp only [IDE.promoteToPermament, hp, if_pos, IDE.setAsPermanent,
        IDE.updateTabStyle, if_neg hnotmem]
    · simp [IDE.promoteToPermament, hp]

/-- C9 witness: a two-tab state whose preview set holds only tab 1; tab 1 is
classified preview and promoting it twice equals promoting it once. -/
theorem c9_witness :
    IDE.promoteToPermament ⟨[⟨1, some "a.md"⟩, ⟨2, some "b.md"⟩], [1], [1], false, 1, 3, []⟩ 2 =
        ⟨[⟨1, some "a.md"⟩, ⟨2, some "b.md"⟩], [1], [1], false, 1, 3, []⟩
    ∧ IDE.promoteToPermament
        (IDE.promoteToPermament ⟨[⟨1, some "a.md"⟩, ⟨2, some "b.md"⟩], [1], [1], false, 1, 3, []⟩ 2)
        2 =
      IDE.promoteToPermament ⟨[⟨1, some "a.md"⟩, ⟨2, some "b.md"⟩], [1], [1], false, 1, 3, []⟩ 2 :=
  ⟨(c9_promote_only_previews _ ⟨2, some "b.md"⟩ (by decide) (by decide)).1 (by decide),
   (c9_promote_only_previews _ ⟨2, some "b.md"⟩ (by decide) (by decide)).2.2.2⟩

/-! ### C10: the pending modifier-click flag -/

@[simp] theorem ctrl_updateTabStyle (s : IDE.ESt) (lid : Nat) :
    (IDE.updateTabStyle s lid).isCtrlClickPending = s.isCtrlClickPending := by
  unfold IDE.updateTabStyle; split <;> rfl

@[simp] theorem ctrl_setAsPreview (s : IDE.ESt) (lid : Nat) :
    (IDE.setAsPreview s lid).isCtrlClickPending = s.isCtrlClickPending := by
  unfold IDE.setAsPreview; simp

@[simp] theorem ctrl_setAsPermanent (s : IDE.ESt) (lid : Nat) :
    (IDE.setAsPermanent s lid).isCtrlClickPending = s.isCtrlClickPending := by
  unfold IDE.setAsPermanent; simp

@[simp] theorem ctrl_openFileIn (s : IDE.ESt) (lid : Nat) (p : String) :
    (IDE.openFileIn s lid p).isCtrlClickPending = s.isCtrlClickPending := rfl

@[simp] theorem ctrl_openInNewTab (s : IDE.ESt) (f : VFile) (b : Bool) :
    ((IDE.openInNewTab s f b).1).isCtrlClickPending = s.isCtrlClickPending := by
  unfold IDE.openInNewTab
  by_cases hb : b = true <;> simp [hb]

@[simp] theorem ctrl_openFileCore (s : IDE.ESt) (l : IDE.ELeaf) (f : VFile)
    (cs : TabState) (b : Bool) :
    ((IDE.openFileCore s l f cs b).1).isCtrlClickPending = s.isCtrlClickPending := by
  unfold IDE.openFileCore
  split
  · split <;> simp
  · split
    · simp
    · split <;> simp

theorem ctrl_handleOpenFileV1 (s : IDE.ESt) (l : IDE.ELeaf) (f : VFile) (os : OpenMeta) :
    ((IDE.handleOpenFileV1 s l f os).1).isCtrlClickPending = false := by
  unfold IDE.handleOpenFileV1 IDE.consumeCtrlClickFlag
  dsimp only
  split
  · rfl
  · split
    · split
      · rfl
      · simp
    · simp

theorem ctrl_handleOpenFileV3 (s : IDE.ESt) (l : IDE.ELeaf) (f : VFile) (os : OpenMeta) :
    ((IDE.handleOpenFileV3 s l f os).1).isCtrlClickPending = false := by
  unfold IDE.handleOpenFileV3 IDE.handleOpenFileV3Core IDE.consumeCtrlClickFlag
  dsimp only
  split
  · rfl
  · split
    · split
      · rfl
      · simp
    · simp

/-- C10: the pending modifier-click flag is a single plugin-wide boolean —
the click handler that raises it sees only "modifier held" and "target is a
file element", never which file or panel was hit; `handleOpenFile` consumes
it first thing, so the flag is false after every invocation, whatever the
call's target and outcome; and a follow-up `handleOpenFile` therefore reads
a false flag, so one modifier click forces permanence for at most one
subsequent open. -/
theorem c10_ctrl_click_flag_lifecycle :
    (∀ s : IDE.ESt, (IDE.ctrlClickHandler s true true).isCtrlClickPending = true)
    ∧ (∀ s : IDE.ESt, (IDE.consumeCtrlClickFlag s).1 = s.isCtrlClickPending
        ∧ ((IDE.consumeCtrlClickFlag s).2).isCtrlClickPending = false)
    ∧ (∀ (s : IDE.ESt) (l : IDE.ELeaf) (f : VFile) (os : OpenMeta),
        ((IDE.handleOpenFileV1 s l f os).1).isCtrlClickPending = false
        ∧ ((IDE.handleOpenFileV3 s l f os).1).isCtrlClickPending = false)
    ∧ (∀ (s : IDE.ESt) (l : IDE.ELeaf) (f : VFile) (os : OpenMeta),
        (IDE.consumeCtrlClickFlag ((IDE.handleOpenFileV1 s l f os).1)).1 = false) := by
  refine ⟨fun s => rfl, fun s => ⟨rfl, rfl⟩, ?_, ?_⟩
  · intro s l f os
    exact ⟨ctrl_handleOpenFileV1 s l f os, ctrl_handleOpenFileV3 s l f os⟩
  · intro s l f os
    unfold IDE.consumeCtrlClickFlag
    exact ctrl_handleOpenFileV1 s l f os

/-! ### C7: a mismatching navigation event discards the snapshot unused -/

/-- C7: when a pending-creation snapshot exists and the next file-open event
reports no file, or a file other than the snapshot's new content, the
handler resets the pending-creation state to empty and changes nothing
else — no tab content, preview registration, marker or focus is touched. -/
theorem c7_snapshot_discard (s : PM.PState) (snap : PM.Snapshot) (file : Option String)
    (hs : s.creation = some snap)
    (hmis : ∀ p, file = some p → p ≠ snap.newFile) :
    PM.fileOpenHandler s file = { s with creation := none } := by
  unfold PM.fileOpenHandler
  rw [hs]
  cases file with
  | none => rfl
  | some p => simp [hmis p rfl]

/-- C7 witness: a snapshot for `n.md` discarded by a file-open event for
`y.md`; only the snapshot field is cleared. -/
theorem c7_witness :
    PM.fileOpenHandler ⟨[⟨1, 0, some "x.md"⟩], [], [], 1, 2, some ⟨"n.md", 1, none⟩,
        PM.DEFAULT_SETTINGS⟩ (some "y.md") =
      ⟨[⟨1, 0, some "x.md"⟩], [], [], 1, 2, none, PM.DEFAULT_SETTINGS⟩ :=
  c7_snapshot_discard _ ⟨"n.md", 1, none⟩ _ rfl (by decide)

/-! ### C4: the duplicate check -/

theorem openFileCore_not_focus (s : IDE.ESt) (l : IDE.ELeaf) (f : VFile)
    (cs : TabState) (b : Bool) : ((IDE.openFileCore s l f cs b).2).isFocus = false := by
  unfold IDE.openFileCore IDE.openInNewTab
  split
  · split <;> simp [IDE.OFAction.isFocus]
  · split
    · simp [IDE.OFAction.isFocus]
    · split <;> simp [IDE.OFAction.isFocus]

theorem openFileCore_permanent_action (s : IDE.ESt) (l : IDE.ELeaf) (f : VFile)
    (cs : TabState) :
    (IDE.openFileCore s l f cs true).2 =
      if cs = TabState.empty then IDE.OFAction.openedInCurrent l.id true
      else IDE.OFAction.openedInNewTab s.nextId true := by
  unfold IDE.openFileCore IDE.openInNewTab
  cases cs <;> simp

theorem handleOpenFileV1_eq (s : IDE.ESt) (l : IDE.ELeaf) (f : VFile) (os : OpenMeta) :
    IDE.handleOpenFileV1 s l f os =
      if l.content = some f.path then
        ({ s with isCtrlClickPending := false }, IDE.OFAction.sameFileSkip)
      else
        match IDE.findLeafWithFile s f.path l with
        | some ex =>
          if IDE.determineOpenIntentV1 f os = OpenIntent.browse ∧ s.isCtrlClickPending = false then
            ({ s with isCtrlClickPending := false, activeId := ex.id },
              IDE.OFAction.focusedExisting ex.id)
          else
            IDE.openFileCore { s with isCtrlClickPending := false } l f (IDE.getTabState s l)
              (decide (IDE.determineOpenIntentV1 f os = OpenIntent.create
                ∨ s.isCtrlClickPending = true))
        | none =>
          IDE.openFileCore { s with isCtrlClickPending := false } l f (IDE.getTabState s l)
            (decide (IDE.determineOpenIntentV1 f os = OpenIntent.create
              ∨ s.isCtrlClickPending = true)) := rfl

theorem handleOpenFileV3Core_eq (s : IDE.ESt) (l : IDE.ELeaf) (f : VFile) (os : OpenMeta) :
    IDE.handleOpenFileV3Core s l f os =
      if l.content = some f.path then
        ({ s with isCtrlClickPending := false }, IDE.OFAction.sameFileSkip)
      else
        match IDE.findLeafWithFile s f.path l with
        | some ex =>
          if s.isCtrlClickPending = false then
            ({ s with isCtrlClickPending := false, activeId := ex.id },
              IDE.OFAction.focusedExisting ex.id)
          else
            IDE.openFileCore { s with isCtrlClickPending := false } l f (IDE.getTabState s l)
              (decide (IDE.determineOpenIntentV3 f os = OpenIntent.create
                ∨ s.isCtrlClickPending = true))
        | none =>
          IDE.openFileCore { s with isCtrlClickPending := false } l f (IDE.getTabState s l)
            (decide (IDE.determineOpenIntentV3 f os = OpenIntent.create
              ∨ s.isCtrlClickPending = true)) := rfl

/-- C4 counterexample: the tab group holds `b.md` (the receiver, leaf 1) and
`a.md` (leaf 2); `a.md` is opened with the rename-on-open signal, so the
intent is `create`, and no modifier click is pending.  The claim says a
create-intent open proceeds to open the content in a new permanent tab, but
the variant at src/main.ts lines 2567-2573 tests only the modifier flag:
it focuses the existing tab and stops, creating nothing. -/
theorem c4_counterexample :
    IDE.determineOpenIntentV3 ⟨"a.md", "a.md", "md", false⟩ ⟨true, false⟩ = OpenIntent.create
    ∧ (IDE.handleOpenFileV3 ⟨[⟨1, some "b.md"⟩, ⟨2, some "a.md"⟩], [], [], false, 1, 3, []⟩
          ⟨1, some "b.md"⟩ ⟨"a.md", "a.md", "md", false⟩ ⟨true, false⟩).2 =
        IDE.OFAction.focusedExisting 2
    ∧ (IDE.handleOpenFileV3 ⟨[⟨1, some "b.md"⟩, ⟨2, some "a.md"⟩], [], [], false, 1, 3, []⟩
          ⟨1, some "b.md"⟩ ⟨"a.md", "a.md", "md", false⟩ ⟨true, false⟩).1.leaves =
        [⟨1, some "b.md"⟩, ⟨2, some "a.md"⟩] := by
  decide

/-- C4 (amended): when the content is already open in another tab of the
same panel (and the receiver itself does not hold it, and the file is not a
just-created one), the variant at src/main.ts lines 310-316 focuses that
tab and stops — leaving the tab list untouched — if and only if the intent
is browse and the open is not modifier-forced, while the variant at lines
2567-2573 focuses and stops if and only if the open is not modifier-forced,
regardless of intent.  When an open does proceed because it is
modifier-forced (or, in the first variant, create-intent), the content is
opened permanent: in a new tab when the current tab is preview or
permanent, in the current tab when it is empty. -/
theorem c4_duplicate_focus (s : IDE.ESt) (l : IDE.ELeaf) (f : VFile) (os : OpenMeta)
    (ex : IDE.ELeaf)
    (hne : l.content ≠ some f.path)
    (hdup : IDE.findLeafWithFile s f.path l = some ex)
    (hnew : f.path ∉ s.newlyCreatedFiles) :
    ((IDE.handleOpenFileV1 s l f os).2.isFocus = true ↔
        (IDE.determineOpenIntentV1 f os = OpenIntent.browse ∧ s.isCtrlClickPending = false))
    ∧ ((IDE.handleOpenFileV3 s l f os).2.isFocus = true ↔ s.isCtrlClickPending = false)
    ∧ ((IDE.handleOpenFileV1 s l f os).2.isFocus = true →
        ((IDE.handleOpenFileV1 s l f os).1).leaves = s.leaves)
    ∧ ((IDE.handleOpenFileV3 s l f os).2.isFocus = true →
        ((IDE.handleOpenFileV3 s l f os).1).leaves = s.leaves)
    ∧ ((s.isCtrlClickPending = true ∨ IDE.determineOpenIntentV1 f os = OpenIntent.create) →
        (IDE.handleOpenFileV1 s l f os).2 =
          (if IDE.getTabState s l = TabState.empty then IDE.OFAction.openedInCurrent l.id true
           else IDE.OFAction.openedInNewTab s.nextId true))
    ∧ (s.isCtrlClickPending = true →
        (IDE.handleOpenFileV3 s l f os).2 =
          (if IDE.getTabState s l = TabState.empty then IDE.OFAction.openedInCurrent l.id true
           else IDE.OFAction.openedInNewTab s.nextId true)) := by
  have h3 : IDE.handleOpenFileV3 s l f os = IDE.handleOpenFileV3Core s l f os := by
    unfold IDE.handleOpenFileV3 IDE.injectRenameForNewFile
    rw [if_neg hnew]
  rw [h3, handleOpenFileV1_eq, handleOpenFileV3Core_eq, if_neg hne, if_neg hne, hdup]
  dsimp only
  by_cases hguard1 : IDE.determineOpenIntentV1 f os = OpenIntent.browse
      ∧ s.isCtrlClickPending = false
  · rw [if_pos hguard1, if_pos hguard1.2]
    refine ⟨by simp [IDE.OFAction.isFocus, hguard1], by simp [IDE.OFAction.isFocus, hguard1.2],
      fun _ => rfl, fun _ => rfl, ?_, ?_⟩
    · rintro (hctr | hcr)
      · exact absurd hguard1.2 (by simp [hctr])
      · exact absurd hguard1.1 (by simp [hcr])
    · intro hctr
      exact absurd hguard1.2 (by simp [hctr])
  · rw [if_neg hguard1]
    by_cases hc : s.isCtrlClickPending = false
    · have hcr : IDE.determineOpenIntentV1 f os = OpenIntent.create := by
        rcases hI : IDE.determineOpenIntentV1 f os with _ | _
        · exact absurd ⟨hI, hc⟩ hguard1
        · rfl
      rw [if_pos hc]
      refine ⟨by simp [openFileCore_not_focus, hguard1], by simp [IDE.OFAction.isFocus, hc],
        ?_, fun _ => rfl, ?_, ?_⟩
      · intro hfoc
        rw [openFileCore_not_focus] at hfoc
        exact absurd hfoc (by simp)
      · intro _
        have hb : decide (IDE.determineOpenIntentV1 f os = OpenIntent.create
            ∨ s.isCtrlClickPending = true) = true := by simp [hcr]
        rw [hb, openFileCore_permanent_action]
      · intro hctr
        exact absurd hc (by simp [hctr])
    · have hctr : s.isCtrlClickPending = true := by
        simpa using hc
      rw [if_neg hc]
      have hb1 : decide (IDE.determineOpenIntentV1 f os = OpenIntent.create
          ∨ s.isCtrlClickPending = true) = true := by simp [hctr]
      have hb3 : decide (IDE.determineOpenIntentV3 f os = OpenIntent.create
          ∨ s.isCtrlClickPending = true) = true := by simp [hctr]
      rw [hb1, hb3]
      refine ⟨by simp [openFileCore_not_focus, hctr], by simp [openFileCore_not_focus, hctr],
        ?_, ?_, ?_, ?_⟩
      · intro hfoc
        rw [openFileCore_not_focus] at hfoc
        exact absurd hfoc (by simp)
      · intro hfoc
        rw [openFileCore_not_focus] at hfoc
        exact absurd hfoc (by simp)
      · intro _
        rw [openFileCore_permanent_action]
      · intro _
        rw [openFileCore_permanent_action]

/-- C4 witness: create intent with no pending modifier on a permanent
current tab; variant 1 proceeds past the duplicate and opens a new
permanent tab. -/
theorem c4_witness :
    (IDE.handleOpenFileV1 ⟨[⟨1, some "b.md"⟩, ⟨2, some "a.md"⟩], [], [], false, 1, 3, []⟩
        ⟨1, some "b.md"⟩ ⟨"a.md", "a.md", "md", false⟩ ⟨true, false⟩).2 =
      IDE.OFAction.openedInNewTab 3 true := by
  have h := (c4_duplicate_focus ⟨[⟨1, some "b.md"⟩, ⟨2, some "a.md"⟩], [], [], false, 1, 3, []⟩
      ⟨1, some "b.md"⟩ ⟨"a.md", "a.md", "md", false⟩ ⟨true, false⟩ ⟨2, some "a.md"⟩
      (by decide) (by decide) (by decide)).2.2.2.2.1 (Or.inr (by decide))
  rwa [if_neg (by decide)] at h

/-! ### List and state lemmas shared by the variant-2 proofs -/

theorem find?_map_of_pred {α : Type} (g : α → α) (p : α → Bool)
    (h : ∀ x, p (g x) = p x) (l : List α) :
    (l.map g).find? p = (l.find? p).map g := by
  induction l with
  | nil => rfl
  | cons a t ih =>
    by_cases hp : p a = true
    · rw [List.map_cons, List.find?_cons_of_pos _ (by rw [h]; exact hp),
        List.find?_cons_of_pos _ hp]
      rfl
    · rw [List.map_cons, List.find?_cons_of_neg _ (by rw [h]; simpa using hp),
        List.find?_cons_of_neg _ (by simpa using hp), ih]

/-- The content-update function applied by `openFileInLeaf`. -/
def updC (lid : Nat) (p : String) (x : PM.Leaf) : PM.Leaf :=
  if x.id = lid then { x with content := some p } else x

theorem updC_id (lid : Nat) (p : String) (x : PM.Leaf) : (updC lid p x).id = x.id := by
  unfold updC; split <;> rfl

theorem updC_panel (lid : Nat) (p : String) (x : PM.Leaf) : (updC lid p x).panel = x.panel := by
  unfold updC; split <;> rfl

theorem openFileInLeaf_leaves (s : PM.PState) (lid : Nat) (p : String) :
    (PM.openFileInLeaf s lid p).leaves = s.leaves.map (updC lid p) := rfl

theorem findLeaf_openFileInLeaf (s : PM.PState) (lid j : Nat) (p : String) :
    PM.findLeaf (PM.openFileInLeaf s lid p) j = (PM.findLeaf s j).map (updC lid p) := by
  unfold PM.findLeaf
  rw [openFileInLeaf_leaves]
  exact find?_map_of_pred _ _ (fun x => by rw [updC_id]) _

theorem lookupPB_cons_self (v : Nat) (rest : List (Nat × Nat)) (p : Nat) :
    PM.lookupPB ((p, v) :: rest) p = some v := by
  simp [PM.lookupPB]

theorem markAsPreview_leaves (s : PM.PState) (l : PM.Leaf) :
    (PM.markAsPreview s l).leaves = s.leaves := by
  unfold PM.markAsPreview; dsimp only; split <;> rfl

theorem markAsPreview_previewByPanel (s : PM.PState) (l : PM.Leaf) :
    (PM.markAsPreview s l).previewByPanel =
      (l.panel, l.id) :: PM.erasePB s.previewByPanel l.panel := by
  unfold PM.markAsPreview; dsimp only; split <;> rfl

theorem markAsPreview_activeId (s : PM.PState) (l : PM.Leaf) :
    (PM.markAsPreview s l).activeId = s.activeId := by
  unfold PM.markAsPreview; dsimp only; split <;> rfl

theorem markAsPreview_nextId (s : PM.PState) (l : PM.Leaf) :
    (PM.markAsPreview s l).nextId = s.nextId := by
  unfold PM.markAsPreview; dsimp only; split <;> rfl

theorem markAsPreview_settings (s : PM.PState) (l : PM.Leaf) :
    (PM.markAsPreview s l).settings = s.settings := by
  unfold PM.markAsPreview; dsimp only; split <;> rfl

theorem markAsPermanent_leaves (s : PM.PState) (l : PM.Leaf) :
    (PM.markAsPermanent s l).leaves = s.leaves := by
  unfold PM.markAsPermanent; dsimp only; split <;> rfl

theorem markAsPermanent_previewByPanel (s : PM.PState) (l : PM.Leaf) :
    (PM.markAsPermanent s l).previewByPanel =
      if PM.lookupPB s.previewByPanel l.panel = some l.id then
        PM.erasePB s.previewByPanel l.panel
      else s.previewByPanel := by
  unfold PM.markAsPermanent; dsimp only; split <;> simp_all

theorem markAsPermanent_activeId (s : PM.PState) (l : PM.Leaf) :
    (PM.markAsPermanent s l).activeId = s.activeId := by
  unfold PM.markAsPermanent; dsimp only; split <;> rfl

theorem markAsPermanent_nextId (s : PM.PState) (l : PM.Leaf) :
    (PM.markAsPermanent s l).nextId = s.nextId := by
  unfold PM.markAsPermanent; dsimp only; split <;> rfl

theorem markAsPermanent_settings (s : PM.PState) (l : PM.Leaf) :
    (PM.markAsPermanent s l).settings = s.settings := by
  unfold PM.markAsPermanent; dsimp only; split <;> rfl

theorem findLeaf_markAsPreview (s : PM.PState) (l : PM.Leaf) (j : Nat) :
    PM.findLeaf (PM.markAsPreview s l) j = PM.findLeaf s j := by
  unfold PM.findLeaf
  rw [markAsPreview_leaves]

theorem findLeaf_markAsPermanent (s : PM.PState) (l : PM.Leaf) (j : Nat) :
    PM.findLeaf (PM.markAsPermanent s l) j = PM.findLeaf s j := by
  unfold PM.findLeaf
  rw [markAsPermanent_leaves]

theorem findLeaf_setActive (s : PM.PState) (lid j : Nat) :
    PM.findLeaf (PM.setActive s lid) j = PM.findLeaf s j := rfl

/-! ### C3: preview-tab reuse versus empty-tab reuse -/

/-- C3 counterexample: default settings, panel 0 holds the registered live
preview tab 1 (`a.md`, italic-marked) and the active empty tab 2.  A browse
open of `b.md` lands in the empty tab 2 — which becomes the panel's
preview — while tab 1 keeps `a.md` and is promoted to permanent.  The claim
predicted the open would land in the existing preview tab 1. -/
theorem c3_counterexample :
    (PM.browseOpen ⟨[⟨1, 0, some "a.md"⟩, ⟨2, 0, none⟩], [(0, 1)], [1], 2, 3, none,
        PM.DEFAULT_SETTINGS⟩ "b.md").leaves =
      [⟨1, 0, some "a.md"⟩, ⟨2, 0, some "b.md"⟩]
    ∧ PM.lookupPB (PM.browseOpen ⟨[⟨1, 0, some "a.md"⟩, ⟨2, 0, none⟩], [(0, 1)], [1], 2, 3, none,
        PM.DEFAULT_SETTINGS⟩ "b.md").previewByPanel 0 = some 2
    ∧ PM.isPanelPreviewLeaf (PM.browseOpen ⟨[⟨1, 0, some "a.md"⟩, ⟨2, 0, none⟩], [(0, 1)], [1],
        2, 3, none, PM.DEFAULT_SETTINGS⟩ "b.md") ⟨1, 0, some "a.md"⟩ = false := by
  decide

/-- C3 (amended): under the default settings, empty-tab reuse takes
priority over preview-tab reuse: a browse open whose panel has a live
preview tab distinct from the empty active tab opens the content into the
empty active tab, which becomes the panel's preview and is focused, while
the old preview tab keeps its content and is promoted to permanent.  The
existing preview tab is reused (keeping preview state and focus, replacing
its content) only when the active tab is not empty. -/
theorem c3_empty_tab_priority (s : PM.PState) (A pv : PM.Leaf) (f : String)
    (hset : s.settings = PM.DEFAULT_SETTINGS)
    (hact : PM.findLeaf s s.activeId = some A)
    (hreg : PM.lookupPB s.previewByPanel A.panel = some pv.id)
    (hlive : PM.findLeaf s pv.id = some pv)
    (hne : pv.id ≠ A.id)
    (hpanel : pv.panel = A.panel)
    (hdup : ∀ l ∈ s.leaves, ¬(l.content = some f ∧ l.panel = A.panel)) :
    (A.content = none →
      (PM.findLeaf (PM.browseOpen s f) A.id = some ⟨A.id, A.panel, some f⟩
       ∧ PM.lookupPB (PM.browseOpen s f).previewByPanel A.panel = some A.id
       ∧ (PM.browseOpen s f).activeId = A.id
       ∧ PM.findLeaf (PM.browseOpen s f) pv.id = some pv
       ∧ PM.isPanelPreviewLeaf (PM.browseOpen s f) pv = false))
    ∧ (A.content ≠ none →
      (PM.findLeaf (PM.browseOpen s f) pv.id = some ⟨pv.id, pv.panel, some f⟩
       ∧ PM.lookupPB (PM.browseOpen s f).previewByPanel A.panel = some pv.id
       ∧ (PM.browseOpen s f).activeId = pv.id
       ∧ PM.findLeaf (PM.browseOpen s f) A.id = some A)) := by
  have hAid : A.id = s.activeId := by simpa using List.find?_some hact
  have hfA : PM.findLeaf s A.id = some A := by rw [hAid]; exact hact
  have hdupnone : PM.findLeafWithFileInPanel s f A.panel = none := by
    unfold PM.findLeafWithFileInPanel
    exact List.find?_eq_none.mpr (fun x hx => by simpa using hdup x hx)
  have hopen : PM.browseOpen s f = PM.handleSingleClickInPanel s f A := by
    unfold PM.browseOpen PM.openFileLogic
    rw [hact]
    simp only [hset, PM.DEFAULT_SETTINGS, if_true, hdupnone]
    simp
  have hpr : PM.getPreviewLeafForPanel s A.panel = (s, some pv) := by
    unfold PM.getPreviewLeafForPanel
    rw [hreg]
    dsimp only
    rw [hlive]
  constructor
  · intro hempty
    have hstep : PM.browseOpen s f =
        PM.markAsPreview
          (PM.setActive (PM.openFileInLeaf (PM.markAsPermanent s pv) A.id f) A.id) A := by
      rw [hopen]
      unfold PM.handleSingleClickInPanel
      rw [hpr]
      dsimp only
      rw [if_neg hne]
      simp only [hset, PM.DEFAULT_SETTINGS, hempty, Option.isNone_none, Bool.and_true,
        if_true]
    rw [hstep]
    refine ⟨?_, ?_, ?_, ?_, ?_⟩
    · rw [findLeaf_markAsPreview, findLeaf_setActive, findLeaf_openFileInLeaf,
        findLeaf_markAsPermanent, hfA]
      simp [updC]
    · rw [markAsPreview_previewByPanel]
      exact lookupPB_cons_self _ _ _
    · rw [markAsPreview_activeId]
      rfl
    · rw [findLeaf_markAsPreview, findLeaf_setActive, findLeaf_openFileInLeaf,
        findLeaf_markAsPermanent, hlive]
      simp [updC, hne]
    · unfold PM.isPanelPreviewLeaf
      rw [markAsPreview_previewByPanel, hpanel]
      simp [lookupPB_cons_self, Ne.symm hne]
  · intro hfull
    have hisnone : A.content.isNone = false := by
      cases hA : A.content with
      | none => exact absurd hA hfull
      | some _ => rfl
    have hstep : PM.browseOpen s f =
        PM.markAsPreview (PM.setActive (PM.openFileInLeaf s pv.id f) pv.id) pv := by
      rw [hopen]
      unfold PM.handleSingleClickInPanel
      rw [hpr]
      dsimp only
      rw [if_neg hne]
      simp only [hisnone, Bool.and_false, Bool.false_eq_true, if_false]
    rw [hstep]
    refine ⟨?_, ?_, ?_, ?_⟩
    · rw [findLeaf_markAsPreview, findLeaf_setActive, findLeaf_openFileInLeaf, hlive]
      simp [updC]
    · rw [markAsPreview_previewByPanel, hpanel]
      exact lookupPB_cons_self _ _ _
    · rw [markAsPreview_activeId]
      rfl
    · rw [findLeaf_markAsPreview, findLeaf_setActive, findLeaf_openFileInLeaf, hfA]
      simp [updC, Ne.symm hne]

/-- C3 witness: the amended behaviour at the counterexample state — the
empty active tab 2 receives the content and becomes the preview, tab 1 is
promoted. -/
theorem c3_witness :
    PM.findLeaf (PM.browseOpen ⟨[⟨1, 0, some "a.md"⟩, ⟨2, 0, none⟩], [(0, 1)], [1], 2, 3, none,
        PM.DEFAULT_SETTINGS⟩ "b.md") 2 = some ⟨2, 0, some "b.md"⟩
    ∧ PM.lookupPB (PM.browseOpen ⟨[⟨1, 0, some "a.md"⟩, ⟨2, 0, none⟩], [(0, 1)], [1], 2, 3, none,
        PM.DEFAULT_SETTINGS⟩ "b.md").previewByPanel 0 = some 2
    ∧ (PM.browseOpen ⟨[⟨1, 0, some "a.md"⟩, ⟨2, 0, none⟩], [(0, 1)], [1], 2, 3, none,
        PM.DEFAULT_SETTINGS⟩ "b.md").activeId = 2
    ∧ PM.findLeaf (PM.browseOpen ⟨[⟨1, 0, some "a.md"⟩, ⟨2, 0, none⟩], [(0, 1)], [1], 2, 3, none,
        PM.DEFAULT_SETTINGS⟩ "b.md") 1 = some ⟨1, 0, some "a.md"⟩
    ∧ PM.isPanelPreviewLeaf (PM.browseOpen ⟨[⟨1, 0, some "a.md"⟩, ⟨2, 0, none⟩], [(0, 1)], [1],
        2, 3, none, PM.DEFAULT_SETTINGS⟩ "b.md") ⟨1, 0, some "a.md"⟩ = false :=
  (c3_empty_tab_priority ⟨[⟨1, 0, some "a.md"⟩, ⟨2, 0, none⟩], [(0, 1)], [1], 2, 3, none,
      PM.DEFAULT_SETTINGS⟩ ⟨2, 0, none⟩ ⟨1, 0, some "a.md"⟩ "b.md" rfl (by decide) (by decide)
      (by decide) (by decide) (by decide) (by decide)).1 rfl

/-! ### Structural lemmas: insertion, permutation, lookup -/

theorem insertAtPanelIndex_perm (ls : List PM.Leaf) (p i : Nat) (x : PM.Leaf) :
    (PM.insertAtPanelIndex ls p i x).Perm (x :: ls) := by
  induction ls generalizing i with
  | nil =>
    cases i with
    | zero => exact List.Perm.refl _
    | succ j => exact List.Perm.refl _
  | cons a t ih =>
    cases i with
    | zero => exact List.Perm.refl _
    | succ j =>
      unfold PM.insertAtPanelIndex
      split
      · exact (List.Perm.cons a (ih j)).trans (List.Perm.swap x a t)
      · exact (List.Perm.cons a (ih (j + 1))).trans (List.Perm.swap x a t)

theorem length_insertAtPanelIndex (ls : List PM.Leaf) (p i : Nat) (x : PM.Leaf) :
    (PM.insertAtPanelIndex ls p i x).length = ls.length + 1 := by
  have := (insertAtPanelIndex_perm ls p i x).length_eq
  simpa using this

theorem mem_insertAtPanelIndex {ls : List PM.Leaf} {p i : Nat} {x y : PM.Leaf} :
    y ∈ PM.insertAtPanelIndex ls p i x ↔ (y = x ∨ y ∈ ls) := by
  rw [(insertAtPanelIndex_perm ls p i x).mem_iff]
  simp

/-- Plain positional insertion (appending when the index is beyond the
end), for stating where the recovery places the restored tab. -/
def insIdx : Nat → PM.Leaf → List PM.Leaf → List PM.Leaf
  | 0, x, ls => x :: ls
  | _ + 1, x, [] => [x]
  | i + 1, x, l :: rest => l :: insIdx i x rest

theorem filter_insertAtPanelIndex (ls : List PM.Leaf) (p i : Nat) (x : PM.Leaf)
    (hx : x.panel = p) :
    (PM.insertAtPanelIndex ls p i x).filter (fun l => decide (l.panel = p)) =
      insIdx i x (ls.filter (fun l => decide (l.panel = p))) := by
  induction ls generalizing i with
  | nil =>
    cases i with
    | zero => simp [PM.insertAtPanelIndex, insIdx, hx]
    | succ j => simp [PM.insertAtPanelIndex, insIdx, hx]
  | cons a t ih =>
    cases i with
    | zero => simp [PM.insertAtPanelIndex, insIdx, hx]
    | succ j =>
      unfold PM.insertAtPanelIndex
      split
      · rename_i ha
        rw [List.filter_cons_of_pos (by simpa using ha), ih j,
          List.filter_cons_of_pos (by simpa using ha)]
        rfl
      · rename_i ha
        rw [List.filter_cons_of_neg (by simpa using ha), ih (j + 1),
          List.filter_cons_of_neg (by simpa using ha)]

theorem map_insIdx (g : PM.Leaf → PM.Leaf) (i : Nat) (x : PM.Leaf) (ls : List PM.Leaf) :
    (insIdx i x ls).map g = insIdx i (g x) (ls.map g) := by
  induction ls generalizing i with
  | nil => cases i <;> rfl
  | cons a t ih =>
    cases i with
    | zero => rfl
    | succ j => simpa [insIdx] using ih j

theorem filter_map_of_pred (g : PM.Leaf → PM.Leaf) (p : PM.Leaf → Bool)
    (h : ∀ x, p (g x) = p x) (l : List PM.Leaf) :
    (l.map g).filter p = (l.filter p).map g := by
  induction l with
  | nil => rfl
  | cons a t ih =>
    by_cases hp : p a = true
    · rw [List.map_cons, List.filter_cons_of_pos (by rw [h]; exact hp),
        List.filter_cons_of_pos hp, List.map_cons, ih]
    · rw [List.map_cons, List.filter_cons_of_neg (by rw [h]; simpa using hp),
        List.filter_cons_of_neg (by simpa using hp), ih]

theorem map_updC_eq_self {ls : List PM.Leaf} {lid : Nat} {f : String}
    (h : ∀ x ∈ ls, x.id ≠ lid) : ls.map (updC lid f) = ls := by
  induction ls with
  | nil => rfl
  | cons a t ih =>
    rw [List.map_cons, ih (fun x hx => h x (List.mem_cons_of_mem a hx))]
    have ha : a.id ≠ lid := h a (List.mem_cons_self a t)
    unfold updC
    rw [if_neg ha]

theorem ids_map_updC (ls : List PM.Leaf) (lid : Nat) (f : String) :
    (ls.map (updC lid f)).map (fun l => l.id) = ls.map (fun l => l.id) := by
  induction ls with
  | nil => rfl
  | cons a t ih => simp [ih, updC_id]

theorem find?_eq_of_nodup_mem {l : List PM.Leaf}
    (hnd : (l.map (fun x => x.id)).Nodup) {x : PM.Leaf} (hx : x ∈ l) :
    l.find? (fun y => decide (y.id = x.id)) = some x := by
  induction l with
  | nil => cases hx
  | cons a t ih =>
    rcases List.mem_cons.mp hx with rfl | hx
    · exact List.find?_cons_of_pos _ (by simp)
    · have hnd' : (∀ y ∈ t, ¬y.id = a.id) ∧ (t.map (fun x => x.id)).Nodup := by
        simpa using hnd
      have hne : a.id ≠ x.id := fun hcontra => hnd'.1 x hx hcontra.symm
      rw [List.find?_cons_of_neg _ (by simpa using hne)]
      exact ih hnd'.2 hx

theorem lookupPB_erasePB (m : List (Nat × Nat)) (p : Nat) :
    PM.lookupPB (PM.erasePB m p) p = none := by
  induction m with
  | nil => rfl
  | cons e rest ih =>
    unfold PM.erasePB at ih ⊢
    by_cases he : e.1 = p
    · simpa [he] using ih
    · simpa [PM.lookupPB, he] using ih

theorem lookupPB_mem {m : List (Nat × Nat)} {p v : Nat}
    (h : PM.lookupPB m p = some v) : (p, v) ∈ m := by
  induction m with
  | nil => cases h
  | cons e rest ih =>
    unfold PM.lookupPB at h
    by_cases he : e.1 = p
    · rw [if_pos he] at h
      exact List.mem_cons.mpr (Or.inl (by rcases e with ⟨a, b⟩; cases h; simpa using he.symm))
    · rw [if_neg he] at h
      exact List.mem_cons_of_mem e (ih h)

theorem erasePB_subset {m : List (Nat × Nat)} {p : Nat} {e : Nat × Nat}
    (h : e ∈ PM.erasePB m p) : e ∈ m :=
  List.mem_of_mem_filter h

theorem markAsPermanent_previewByPanel_subset (s : PM.PState) (l : PM.Leaf)
    {e : Nat × Nat} (h : e ∈ (PM.markAsPermanent s l).previewByPanel) :
    e ∈ s.previewByPanel := by
  rw [markAsPermanent_previewByPanel] at h
  revert h
  split
  · exact fun h => erasePB_subset h
  · exact fun h => h

theorem markAsPermanent_not_self (s : PM.PState) (l : PM.Leaf) :
    PM.lookupPB (PM.markAsPermanent s l).previewByPanel l.panel ≠ some l.id := by
  rw [markAsPermanent_previewByPanel]
  split
  · rw [lookupPB_erasePB]
    simp
  · assumption

theorem ensureTitleEdit_leaves (s : PM.PState) (t : Nat) (c : String) :
    (PM.ensureTitleEditAfterCreate s t c).leaves = s.leaves := by
  unfold PM.ensureTitleEditAfterCreate
  split
  · split <;> rfl
  · rfl

theorem ensureTitleEdit_previewByPanel (s : PM.PState) (t : Nat) (c : String) :
    (PM.ensureTitleEditAfterCreate s t c).previewByPanel = s.previewByPanel := by
  unfold PM.ensureTitleEditAfterCreate
  split
  · split <;> rfl
  · rfl

theorem ensureTitleEdit_activeId_of (s : PM.PState) (t : Nat) (c : String)
    (x : PM.Leaf) (hx : PM.findLeaf s t = some x) (hc : x.content = some c)
    (hid : x.id = t) :
    (PM.ensureTitleEditAfterCreate s t c).activeId = t := by
  unfold PM.ensureTitleEditAfterCreate
  rw [hx]
  dsimp only
  rw [if_pos hc, hid]
  rfl

theorem setActive_leaves (s : PM.PState) (lid : Nat) :
    (PM.setActive s lid).leaves = s.leaves := rfl

theorem setActive_previewByPanel (s : PM.PState) (lid : Nat) :
    (PM.setActive s lid).previewByPanel = s.previewByPanel := rfl

theorem setActive_activeId (s : PM.PState) (lid : Nat) :
    (PM.setActive s lid).activeId = lid := rfl

theorem openFileInLeaf_previewByPanel (s : PM.PState) (lid : Nat) (p : String) :
    (PM.openFileInLeaf s lid p).previewByPanel = s.previewByPanel := rfl

theorem ensureTitleEdit_activeId_self (s : PM.PState) (t : Nat) (c : String)
    (h : s.activeId = t) : (PM.ensureTitleEditAfterCreate s t c).activeId = t := by
  unfold PM.ensureTitleEditAfterCreate
  cases hf : PM.findLeaf s t with
  | none => exact h
  | some x =>
    dsimp only
    split
    · have hx : x.id = t := by simpa using List.find?_some hf
      simpa [PM.setActive] using hx
    · exact h

/-! ### C6: creation-hijack recovery -/

/-- C6 counterexample: panel 0 holds a single tab (leaf 1) with `old.md`
which IS the panel's registered preview; a creation event snapshots it, the
host creation flow overwrites (hijacks) the leaf with `new.md`, and the
confirming file-open event runs the recovery.  The restored tab (leaf 2)
holds `old.md` but is marked permanent — `restoreHijackedTab`
(src/main.ts:1176) always calls `markAsPermanent` on it — although the
leaf's pre-hijack state was preview, which the claim says should be kept. -/
theorem c6_counterexample :
    PM.isPanelPreviewLeaf ⟨[⟨1, 0, some "old.md"⟩], [(0, 1)], [1], 1, 2, none,
        PM.DEFAULT_SETTINGS⟩ ⟨1, 0, some "old.md"⟩ = true
    ∧ PM.findLeaf (PM.fileOpenHandler
        (PM.openFileInLeaf
          (PM.onVaultCreate ⟨[⟨1, 0, some "old.md"⟩], [(0, 1)], [1], 1, 2, none,
            PM.DEFAULT_SETTINGS⟩ "new.md" "md") 1 "new.md")
        (some "new.md")) 2 = some ⟨2, 0, some "old.md"⟩
    ∧ PM.isPanelPreviewLeaf (PM.fileOpenHandler
        (PM.openFileInLeaf
          (PM.onVaultCreate ⟨[⟨1, 0, some "old.md"⟩], [(0, 1)], [1], 1, 2, none,
            PM.DEFAULT_SETTINGS⟩ "new.md" "md") 1 "new.md")
        (some "new.md")) ⟨2, 0, some "old.md"⟩ = false := by
  decide

/-- C6 (amended): when the creation overwrote the snapshot's own leaf and
that leaf's prior content existed and differs from the new content, the
recovery produces exactly two tabs of interest: a recreated tab at the
hijacked leaf's original position in the panel holding the prior content,
always marked permanent regardless of its pre-hijack state, and the
hijacked leaf still holding the new content, marked permanent and focused. -/
theorem c6_hijack_recovery (s s' : PM.PState) (hj : PM.Leaf) (hid idx : Nat)
    (oldF newF : String)
    (hwf : PM.WF s)
    (hfj : PM.findLeaf s hid = some hj)
    (hcont : hj.content = some newF)
    (hdiff : oldF ≠ newF)
    (hidx : (PM.panelChildren s hj.panel).findIdx? (fun l => decide (l.id = hid)) = some idx)
    (hs' : s' = PM.handleFileCreation s newF hid (some hid) (some oldF)) :
    s'.leaves.length = s.leaves.length + 1
    ∧ PM.findLeaf s' s.nextId = some ⟨s.nextId, hj.panel, some oldF⟩
    ∧ PM.isPanelPreviewLeaf s' ⟨s.nextId, hj.panel, some oldF⟩ = false
    ∧ PM.findLeaf s' hid = some ⟨hid, hj.panel, some newF⟩
    ∧ PM.isPanelPreviewLeaf s' hj = false
    ∧ s'.activeId = hid
    ∧ PM.panelChildren s' hj.panel =
        insIdx idx ⟨s.nextId, hj.panel, some oldF⟩ (PM.panelChildren s hj.panel) := by
  have hjid : hj.id = hid := by simpa using List.find?_some hfj
  have hjmem : hj ∈ s.leaves := List.mem_of_find?_eq_some hfj
  have hjlt : hj.id < s.nextId := hwf.2.1 hj hjmem
  have hdisp : s' = PM.restoreHijackedTab s hid oldF newF := by
    rw [hs']
    unfold PM.handleFileCreation
    simp [hdiff]
  set R0 : PM.Leaf := ⟨s.nextId, hj.panel, none⟩ with hR0
  set s1 : PM.PState := { s with leaves := PM.insertAtPanelIndex s.leaves hj.panel idx R0,
                                 nextId := s.nextId + 1 } with hs1
  set s2 : PM.PState := PM.openFileInLeaf s1 s.nextId oldF with hs2
  set s3 : PM.PState := PM.markAsPermanent s2 R0 with hs3
  set s4 : PM.PState := PM.setActive s3 hj.id with hs4
  set s5 : PM.PState := PM.markAsPermanent s4 hj with hs5
  have hrest : s' = PM.ensureTitleEditAfterCreate s5 hj.id newF := by
    rw [hdisp]
    unfold PM.restoreHijackedTab
    rw [hfj]
    dsimp only
    rw [hidx]
  have hleaves : s'.leaves =
      (PM.insertAtPanelIndex s.leaves hj.panel idx R0).map (updC s.nextId oldF) := by
    rw [hrest, ensureTitleEdit_leaves, hs5, markAsPermanent_leaves, hs4, setActive_leaves,
      hs3, markAsPermanent_leaves, hs2, openFileInLeaf_leaves, hs1]
  have hpbp : s'.previewByPanel = (PM.markAsPermanent s4 hj).previewByPanel := by
    rw [hrest, ensureTitleEdit_previewByPanel, hs5]
  have hnd2 : (s'.leaves.map (fun l => l.id)).Nodup := by
    rw [hleaves, ids_map_updC]
    have hperm := (insertAtPanelIndex_perm s.leaves hj.panel idx R0).map (fun l => l.id)
    refine hperm.symm.nodup ?_
    rw [List.map_cons, List.nodup_cons]
    refine ⟨?_, hwf.1⟩
    intro hmem
    rcases List.mem_map.mp hmem with ⟨x, hx, hxid⟩
    have hx2 : x.id = s.nextId := hxid
    have := hwf.2.1 x hx
    omega
  have hsub : ∀ e ∈ s'.previewByPanel, e ∈ s.previewByPanel := by
    intro e he
    rw [hpbp] at he
    have h1 := markAsPermanent_previewByPanel_subset _ _ he
    rw [hs4, setActive_previewByPanel, hs3] at h1
    have h2 := markAsPermanent_previewByPanel_subset _ _ h1
    rw [hs2, openFileInLeaf_previewByPanel, hs1] at h2
    exact h2
  refine ⟨?_, ?_, ?_, ?_, ?_, ?_, ?_⟩
  · rw [hleaves, List.length_map, length_insertAtPanelIndex]
  · have hTmem : (⟨s.nextId, hj.panel, some oldF⟩ : PM.Leaf) ∈ s'.leaves := by
      rw [hleaves]
      refine List.mem_map.mpr ⟨R0, mem_insertAtPanelIndex.mpr (Or.inl rfl), ?_⟩
      simp [updC, hR0]
    exact find?_eq_of_nodup_mem hnd2 hTmem
  · unfold PM.isPanelPreviewLeaf
    apply decide_eq_false
    show ¬PM.lookupPB s'.previewByPanel hj.panel = some s.nextId
    cases hlk : PM.lookupPB s'.previewByPanel hj.panel with
    | none => simp
    | some v =>
      have hv := hsub _ (lookupPB_mem hlk)
      have hvlt : v < s.nextId := hwf.2.2 _ hv
      simp only [Option.some.injEq]
      omega
  · have hmem2 : hj ∈ s'.leaves := by
      rw [hleaves]
      refine List.mem_map.mpr ⟨hj, mem_insertAtPanelIndex.mpr (Or.inr hjmem), ?_⟩
      unfold updC
      rw [if_neg (by omega : ¬hj.id = s.nextId)]
    have hf := find?_eq_of_nodup_mem hnd2 hmem2
    rw [hjid] at hf
    have hjeq : hj = ⟨hid, hj.panel, some newF⟩ := by
      cases hj
      simp_all
    rw [← hjeq]
    exact hf
  · unfold PM.isPanelPreviewLeaf
    rw [hpbp]
    exact decide_eq_false (markAsPermanent_not_self s4 hj)
  · rw [← hjid, hrest]
    refine ensureTitleEdit_activeId_self _ _ _ ?_
    rw [hs5, markAsPermanent_activeId, hs4, setActive_activeId]
  · unfold PM.panelChildren
    rw [hleaves, filter_map_of_pred _ _ (fun x => by rw [updC_panel]),
      filter_insertAtPanelIndex s.leaves hj.panel idx R0 rfl, map_insIdx,
      show updC s.nextId oldF R0 = ⟨s.nextId, hj.panel, some oldF⟩ by simp [updC, hR0],
      map_updC_eq_self]
    intro x hx
    have := hwf.2.1 x (List.mem_of_mem_filter hx)
    omega

/-- C6 witness: the recovery applied where the hijacked leaf 1 (panel 0,
now holding `new.md`, previously `old.md`) is restored into a fresh leaf 2
at position 0; both end permanent, leaf 1 focused. -/
theorem c6_witness :
    (PM.handleFileCreation ⟨[⟨1, 0, some "new.md"⟩], [], [], 1, 2, none, PM.DEFAULT_SETTINGS⟩
        "new.md" 1 (some 1) (some "old.md")).leaves.length = 2
    ∧ PM.findLeaf (PM.handleFileCreation ⟨[⟨1, 0, some "new.md"⟩], [], [], 1, 2, none,
        PM.DEFAULT_SETTINGS⟩ "new.md" 1 (some 1) (some "old.md")) 2 =
      some ⟨2, 0, some "old.md"⟩
    ∧ PM.isPanelPreviewLeaf (PM.handleFileCreation ⟨[⟨1, 0, some "new.md"⟩], [], [], 1, 2, none,
        PM.DEFAULT_SETTINGS⟩ "new.md" 1 (some 1) (some "old.md")) ⟨2, 0, some "old.md"⟩ = false
    ∧ PM.findLeaf (PM.handleFileCreation ⟨[⟨1, 0, some "new.md"⟩], [], [], 1, 2, none,
        PM.DEFAULT_SETTINGS⟩ "new.md" 1 (some 1) (some "old.md")) 1 =
      some ⟨1, 0, some "new.md"⟩
    ∧ PM.isPanelPreviewLeaf (PM.handleFileCreation ⟨[⟨1, 0, some "new.md"⟩], [], [], 1, 2, none,
        PM.DEFAULT_SETTINGS⟩ "new.md" 1 (some 1) (some "old.md")) ⟨1, 0, some "new.md"⟩ = false
    ∧ (PM.handleFileCreation ⟨[⟨1, 0, some "new.md"⟩], [], [], 1, 2, none, PM.DEFAULT_SETTINGS⟩
        "new.md" 1 (some 1) (some "old.md")).activeId = 1
    ∧ PM.panelChildren (PM.handleFileCreation ⟨[⟨1, 0, some "new.md"⟩], [], [], 1, 2, none,
        PM.DEFAULT_SETTINGS⟩ "new.md" 1 (some 1) (some "old.md")) 0 =
      insIdx 0 ⟨2, 0, some "old.md"⟩ [⟨1, 0, some "new.md"⟩] :=
  c6_hijack_recovery ⟨[⟨1, 0, some "new.md"⟩], [], [], 1, 2, none, PM.DEFAULT_SETTINGS⟩ _
    ⟨1, 0, some "new.md"⟩ 1 0 "old.md" "new.md" (by decide) (by decide) rfl (by decide)
    (by decide) rfl

/-! ### C1: the per-panel preview invariant -/

theorem length_le_one_of_all_eq {l : List PM.Leaf}
    (hnd : (l.map (fun x => x.id)).Nodup) {v : Nat} (h : ∀ x ∈ l, x.id = v) :
    l.length ≤ 1 := by
  match l with
  | [] => simp
  | [x] => simp
  | x :: y :: t =>
    exfalso
    have hx : x.id = v := h x (by simp)
    have hy : y.id = v := h y (by simp)
    rw [List.map_cons, List.nodup_cons] at hnd
    exact hnd.1 (by rw [List.map_cons]; exact List.mem_cons.mpr (Or.inl (by omega)))

/-- The per-panel at-most-one-preview property is forced by the registry
representation: a tab is in the preview state exactly when the panel's
single registry entry carries its id, and leaf ids are distinct. -/
theorem previewCount_le_one (s : PM.PState) (hwf : PM.WF s) (p : Nat) :
    PM.previewCount s p ≤ 1 := by
  unfold PM.previewCount
  cases hlk : PM.lookupPB s.previewByPanel p with
  | none =>
    have hnil : (PM.panelChildren s p).filter (fun l => PM.isPanelPreviewLeaf s l) = [] := by
      rw [List.filter_eq_nil_iff]
      intro a ha
      have hap : a.panel = p := by
        simpa using (List.mem_filter.mp ha).2
      unfold PM.isPanelPreviewLeaf
      rw [hap, hlk]
      simp
    rw [hnil]
    simp
  | some lid =>
    have hsub : ((PM.panelChildren s p).filter
        (fun l => PM.isPanelPreviewLeaf s l)).Sublist s.leaves :=
      (List.filter_sublist _).trans (List.filter_sublist _)
    have hnd : (((PM.panelChildren s p).filter
        (fun l => PM.isPanelPreviewLeaf s l)).map (fun l => l.id)).Nodup :=
      hwf.1.sublist (hsub.map _)
    refine length_le_one_of_all_eq hnd (v := lid) ?_
    intro x hx
    have h1 := List.mem_filter.mp hx
    have hap : x.panel = p := by
      simpa using (List.mem_filter.mp h1.1).2
    have h2 : PM.isPanelPreviewLeaf s x = true := h1.2
    unfold PM.isPanelPreviewLeaf at h2
    rw [hap, hlk] at h2
    have h4 : some lid = some x.id := of_decide_eq_true h2
    exact (Option.some.inj h4).symm

theorem openFileInLeaf_nextId (s : PM.PState) (lid : Nat) (p : String) :
    (PM.openFileInLeaf s lid p).nextId = s.nextId := rfl

theorem setActive_nextId (s : PM.PState) (lid : Nat) :
    (PM.setActive s lid).nextId = s.nextId := rfl

theorem WF_openFileInLeaf (s : PM.PState) (lid : Nat) (p : String) (hwf : PM.WF s) :
    PM.WF (PM.openFileInLeaf s lid p) := by
  obtain ⟨h1, h2, h3⟩ := hwf
  refine ⟨?_, ?_, ?_⟩
  · rw [openFileInLeaf_leaves, ids_map_updC]
    exact h1
  · intro x hx
    rw [openFileInLeaf_leaves] at hx
    rcases List.mem_map.mp hx with ⟨y, hy, rfl⟩
    rw [openFileInLeaf_nextId, updC_id]
    exact h2 y hy
  · intro e he
    exact h3 e he

theorem WF_setActive (s : PM.PState) (lid : Nat) (hwf : PM.WF s) :
    PM.WF (PM.setActive s lid) := hwf

theorem WF_markAsPreview (s : PM.PState) (l : PM.Leaf) (hwf : PM.WF s)
    (hl : l.id < s.nextId) : PM.WF (PM.markAsPreview s l) := by
  obtain ⟨h1, h2, h3⟩ := hwf
  refine ⟨?_, ?_, ?_⟩
  · rw [markAsPreview_leaves]
    exact h1
  · intro x hx
    rw [markAsPreview_leaves] at hx
    rw [markAsPreview_nextId]
    exact h2 x hx
  · intro e he
    rw [markAsPreview_previewByPanel] at he
    rw [markAsPreview_nextId]
    rcases List.mem_cons.mp he with rfl | he
    · exact hl
    · exact h3 e (erasePB_subset he)

theorem WF_markAsPermanent (s : PM.PState) (l : PM.Leaf) (hwf : PM.WF s) :
    PM.WF (PM.markAsPermanent s l) := by
  obtain ⟨h1, h2, h3⟩ := hwf
  refine ⟨?_, ?_, ?_⟩
  · rw [markAsPermanent_leaves]
    exact h1
  · intro x hx
    rw [markAsPermanent_leaves] at hx
    rw [markAsPermanent_nextId]
    exact h2 x hx
  · intro e he
    rw [markAsPermanent_nextId]
    exact h3 e (markAsPermanent_previewByPanel_subset s l he)

theorem getPreview_fst_leaves (s : PM.PState) (p : Nat) :
    (PM.getPreviewLeafForPanel s p).1.leaves = s.leaves := by
  unfold PM.getPreviewLeafForPanel
  split
  · rfl
  · split <;> rfl

theorem getPreview_fst_nextId (s : PM.PState) (p : Nat) :
    (PM.getPreviewLeafForPanel s p).1.nextId = s.nextId := by
  unfold PM.getPreviewLeafForPanel
  split
  · rfl
  · split <;> rfl

theorem getPreview_fst_settings (s : PM.PState) (p : Nat) :
    (PM.getPreviewLeafForPanel s p).1.settings = s.settings := by
  unfold PM.getPreviewLeafForPanel
  split
  · rfl
  · split <;> rfl

theorem WF_getPreview_fst (s : PM.PState) (p : Nat) (hwf : PM.WF s) :
    PM.WF (PM.getPreviewLeafForPanel s p).1 := by
  obtain ⟨h1, h2, h3⟩ := hwf
  unfold PM.getPreviewLeafForPanel
  split
  · exact ⟨h1, h2, h3⟩
  · split
    · exact ⟨h1, h2, h3⟩
    · exact ⟨h1, h2, fun e he => h3 e (erasePB_subset he)⟩

theorem getPreview_snd_mem (s : PM.PState) (p : Nat) {pv : PM.Leaf}
    (h : (PM.getPreviewLeafForPanel s p).2 = some pv) : pv ∈ s.leaves := by
  unfold PM.getPreviewLeafForPanel at h
  cases hlk : PM.lookupPB s.previewByPanel p with
  | none =>
    rw [hlk] at h
    dsimp only at h
    cases h
  | some lid =>
    rw [hlk] at h
    dsimp only at h
    cases hf : PM.findLeaf s lid with
    | none =>
      rw [hf] at h
      dsimp only at h
      cases h
    | some l =>
      rw [hf] at h
      dsimp only at h
      cases h
      exact List.mem_of_find?_eq_some hf

theorem createNewTab_fst_nextId (s : PM.PState) (a : PM.Leaf) :
    (PM.createNewTabInSamePanel s a).1.nextId = s.nextId + 1 := rfl

theorem createNewTab_snd_id (s : PM.PState) (a : PM.Leaf) :
    (PM.createNewTabInSamePanel s a).2.id = s.nextId := rfl

theorem WF_createNewTab (s : PM.PState) (a : PM.Leaf) (hwf : PM.WF s) :
    PM.WF (PM.createNewTabInSamePanel s a).1 := by
  obtain ⟨h1, h2, h3⟩ := hwf
  refine ⟨?_, ?_, ?_⟩
  · show (List.map _ (PM.insertAtPanelIndex s.leaves a.panel _ _)).Nodup
    have hperm := (insertAtPanelIndex_perm s.leaves a.panel
      (if s.settings.openNewTabAtEnd then (PM.panelChildren s a.panel).length
       else match (PM.panelChildren s a.panel).findIdx? (fun l => decide (l.id = a.id)) with
            | some i => i + 1
            | none => 0)
      ⟨s.nextId, a.panel, none⟩).map (fun l => l.id)
    refine hperm.symm.nodup ?_
    rw [List.map_cons, List.nodup_cons]
    refine ⟨?_, h1⟩
    intro hmem
    rcases List.mem_map.mp hmem with ⟨x, hx, hxid⟩
    have hx2 : x.id = s.nextId := hxid
    have := h2 x hx
    omega
  · intro x hx
    show x.id < s.nextId + 1
    rcases mem_insertAtPanelIndex.mp hx with rfl | hx
    · simp
    · have := h2 x hx
      omega
  · intro e he
    show e.2 < s.nextId + 1
    have := h3 e he
    omega

theorem WF_handleSingleClickInPanel (s : PM.PState) (f : String) (a : PM.Leaf)
    (hwf : PM.WF s) (ha : a.id < s.nextId) :
    PM.WF (PM.handleSingleClickInPanel s f a) := by
  have hwf1 : PM.WF (PM.getPreviewLeafForPanel s a.panel).1 := WF_getPreview_fst s a.panel hwf
  have hnx : (PM.getPreviewLeafForPanel s a.panel).1.nextId = s.nextId :=
    getPreview_fst_nextId s a.panel
  unfold PM.handleSingleClickInPanel
  dsimp only
  split
  · rename_i pv hpv
    have hpvmem : pv ∈ s.leaves := getPreview_snd_mem s a.panel hpv
    have hpvlt : pv.id < s.nextId := hwf.2.1 pv hpvmem
    split
    · exact WF_markAsPreview _ _ (WF_setActive _ _ (WF_openFileInLeaf _ _ _ hwf1))
        (by rw [setActive_nextId, openFileInLeaf_nextId, hnx]; omega)
    · split
      · split
        · exact WF_markAsPreview _ _
            (WF_setActive _ _ (WF_openFileInLeaf _ _ _ (WF_markAsPermanent _ _ hwf1)))
            (by rw [setActive_nextId, openFileInLeaf_nextId, markAsPermanent_nextId, hnx]
                omega)
        · exact WF_markAsPreview _ _ (WF_setActive _ _ (WF_openFileInLeaf _ _ _ hwf1))
            (by rw [setActive_nextId, openFileInLeaf_nextId, hnx]; omega)
      · exact WF_markAsPreview _ _ (WF_setActive _ _ (WF_openFileInLeaf _ _ _ hwf1))
          (by rw [setActive_nextId, openFileInLeaf_nextId, hnx]; omega)
  · split
    · exact WF_markAsPreview _ _ (WF_setActive _ _ (WF_openFileInLeaf _ _ _ hwf1))
        (by rw [setActive_nextId, openFileInLeaf_nextId, hnx]; omega)
    · exact WF_markAsPreview _ _
        (WF_setActive _ _ (WF_openFileInLeaf _ _ _ (WF_createNewTab _ _ hwf1)))
        (by rw [setActive_nextId, openFileInLeaf_nextId, createNewTab_snd_id,
              createNewTab_fst_nextId, hnx]
            omega)

theorem WF_handleDoubleClickInPanel (s : PM.PState) (f : String) (a : PM.Leaf)
    (hwf : PM.WF s) :
    PM.WF (PM.handleDoubleClickInPanel s f a) := by
  have hwf1 : PM.WF (PM.getPreviewLeafForPanel s a.panel).1 := WF_getPreview_fst s a.panel hwf
  unfold PM.handleDoubleClickInPanel
  dsimp only
  split
  · split
    · exact WF_setActive _ _ (WF_markAsPermanent _ _ hwf1)
    · exact WF_markAsPermanent _ _
        (WF_setActive _ _ (WF_openFileInLeaf _ _ _ (WF_createNewTab _ _ hwf1)))
  · exact WF_markAsPermanent _ _
      (WF_setActive _ _ (WF_openFileInLeaf _ _ _ (WF_createNewTab _ _ hwf1)))

theorem WF_openFileLogic (s : PM.PState) (f : String) (dbl : Bool) (baseId : Nat)
    (hwf : PM.WF s) : PM.WF (PM.openFileLogic s f dbl baseId) := by
  unfold PM.openFileLogic
  cases hfind : PM.findLeaf s baseId with
  | none => exact hwf
  | some active =>
    have hamem : active ∈ s.leaves := List.mem_of_find?_eq_some hfind
    have halt : active.id < s.nextId := hwf.2.1 active hamem
    dsimp only
    split
    · split
      · exact WF_markAsPermanent _ _ (WF_setActive _ _ hwf)
      · exact WF_setActive _ _ hwf
    · split
      · exact WF_handleDoubleClickInPanel s f active hwf
      · exact WF_handleSingleClickInPanel s f active hwf halt

theorem WF_cleanupPreviewMap (s : PM.PState) (hwf : PM.WF s) :
    PM.WF (PM.cleanupPreviewMap s) := by
  obtain ⟨h1, h2, h3⟩ := hwf
  exact ⟨h1, h2, fun e he => h3 e (List.mem_of_mem_filter he)⟩

theorem WF_applyOp (op : PM.POp) (s : PM.PState) (hwf : PM.WF s) :
    PM.WF (PM.applyOp op s) := by
  cases op with
  | browse f => exact WF_openFileLogic s f false s.activeId hwf
  | createOpen f => exact WF_openFileLogic s f true s.activeId hwf
  | promote lid =>
    unfold PM.applyOp
    dsimp only
    cases hfind : PM.findLeaf s lid with
    | none => exact hwf
    | some l => exact WF_markAsPermanent s l hwf
  | closeTab lid =>
    obtain ⟨h1, h2, h3⟩ := hwf
    refine ⟨?_, ?_, ?_⟩
    · exact h1.sublist ((List.filter_sublist _).map _)
    · intro x hx
      exact h2 x (List.mem_of_mem_filter hx)
    · exact h3
  | layoutChange => exact WF_cleanupPreviewMap s hwf

/-- C1: for every panel at most one tab is in the preview state, and every
plugin operation — browse open, create (double-click) open, promotion, tab
close, and the layout-change cleanup — preserves the structural
well-formedness this rests on, hence the invariant holds again after the
operation. -/
theorem c1_per_panel_preview_invariant (s : PM.PState) (op : PM.POp) (hwf : PM.WF s) :
    (∀ p, PM.previewCount s p ≤ 1)
    ∧ PM.WF (PM.applyOp op s)
    ∧ (∀ p, PM.previewCount (PM.applyOp op s) p ≤ 1) :=
  ⟨previewCount_le_one s hwf,
   WF_applyOp op s hwf,
   previewCount_le_one _ (WF_applyOp op s hwf)⟩

/-- C1 witness: the invariant before and after a browse open on a two-tab
panel with a registered preview. -/
theorem c1_witness :
    PM.previewCount ⟨[⟨1, 0, some "a.md"⟩, ⟨2, 0, some "b.md"⟩], [(0, 1)], [1], 1, 3, none,
        PM.DEFAULT_SETTINGS⟩ 0 ≤ 1
    ∧ PM.WF (PM.applyOp (PM.POp.browse "c.md")
        ⟨[⟨1, 0, some "a.md"⟩, ⟨2, 0, some "b.md"⟩], [(0, 1)], [1], 1, 3, none,
          PM.DEFAULT_SETTINGS⟩)
    ∧ PM.previewCount (PM.applyOp (PM.POp.browse "c.md")
        ⟨[⟨1, 0, some "a.md"⟩, ⟨2, 0, some "b.md"⟩], [(0, 1)], [1], 1, 3, none,
          PM.DEFAULT_SETTINGS⟩) 0 ≤ 1 :=
  ⟨(c1_per_panel_preview_invariant _ (PM.POp.browse "c.md") (by decide)).1 0,
   (c1_per_panel_preview_invariant _ (PM.POp.browse "c.md") (by decide)).2.1,
   (c1_per_panel_preview_invariant _ (PM.POp.browse "c.md") (by decide)).2.2 0⟩

/-! ### C2: browse round-trip -/

theorem eq_of_mem_of_nodup_ids {l : List PM.Leaf}
    (hnd : (l.map (fun x => x.id)).Nodup) {x y : PM.Leaf}
    (hx : x ∈ l) (hy : y ∈ l) (h : x.id = y.id) : x = y := by
  have h1 := find?_eq_of_nodup_mem hnd hx
  have h2 := find?_eq_of_nodup_mem hnd hy
  rw [h] at h1
  rw [h1] at h2
  exact Option.some.inj h2

theorem getPreview_snd_panel (s : PM.PState) (p : Nat) (hreg : PM.RegistryOK s)
    {pv : PM.Leaf} (h : (PM.getPreviewLeafForPanel s p).2 = some pv) : pv.panel = p := by
  unfold PM.getPreviewLeafForPanel at h
  cases hlk : PM.lookupPB s.previewByPanel p with
  | none =>
    rw [hlk] at h
    dsimp only at h
    cases h
  | some lid =>
    rw [hlk] at h
    dsimp only at h
    cases hfd : PM.findLeaf s lid with
    | none =>
      rw [hfd] at h
      dsimp only at h
      cases h
    | some l =>
      rw [hfd] at h
      dsimp only at h
      cases h
      have hmem : pv ∈ s.leaves := List.mem_of_find?_eq_some hfd
      have hpid : pv.id = lid := by simpa using List.find?_some hfd
      exact hreg (p, lid) (lookupPB_mem hlk) pv hmem hpid

theorem createNewTab_snd_mem (s : PM.PState) (a : PM.Leaf) :
    (PM.createNewTabInSamePanel s a).2 ∈ (PM.createNewTabInSamePanel s a).1.leaves := by
  unfold PM.createNewTabInSamePanel
  dsimp only
  exact mem_insertAtPanelIndex.mpr (Or.inl rfl)

theorem createNewTab_snd_panel (s : PM.PState) (a : PM.Leaf) :
    (PM.createNewTabInSamePanel s a).2.panel = a.panel := rfl

theorem createNewTab_fst_mem (s : PM.PState) (a : PM.Leaf) {l : PM.Leaf}
    (h : l ∈ (PM.createNewTabInSamePanel s a).1.leaves) :
    l = ⟨s.nextId, a.panel, none⟩ ∨ l ∈ s.leaves := by
  unfold PM.createNewTabInSamePanel at h
  dsimp only at h
  exact mem_insertAtPanelIndex.mp h

theorem createNewTab_content_fresh (s : PM.PState) (a : PM.Leaf) (f : String)
    (hf : ∀ l ∈ s.leaves, l.content ≠ some f) :
    ∀ l ∈ (PM.createNewTabInSamePanel s a).1.leaves, l.content ≠ some f := by
  intro l hl
  rcases createNewTab_fst_mem s a hl with rfl | hl
  · simp
  · exact hf l hl

/-- The common tail of a browse open: open the file into leaf `t`, focus it,
register it as the panel preview. -/
theorem open_tail (s : PM.PState) (t : PM.Leaf) (f : String)
    (hwf : PM.WF s) (ht : t ∈ s.leaves)
    (hf : ∀ l ∈ s.leaves, l.content ≠ some f) :
    (⟨t.id, t.panel, some f⟩ : PM.Leaf) ∈
        (PM.markAsPreview (PM.setActive (PM.openFileInLeaf s t.id f) t.id) t).leaves
    ∧ (PM.markAsPreview (PM.setActive (PM.openFileInLeaf s t.id f) t.id) t).activeId = t.id
    ∧ PM.lookupPB (PM.markAsPreview
        (PM.setActive (PM.openFileInLeaf s t.id f) t.id) t).previewByPanel t.panel = some t.id
    ∧ (∀ l ∈ (PM.markAsPreview (PM.setActive (PM.openFileInLeaf s t.id f) t.id) t).leaves,
        l.content = some f → l = ⟨t.id, t.panel, some f⟩)
    ∧ (∀ l ∈ (PM.markAsPreview (PM.setActive (PM.openFileInLeaf s t.id f) t.id) t).leaves,
        ∀ g, l.content = some g → g = f ∨ ∃ l0 ∈ s.leaves, l0.content = some g)
    ∧ PM.WF (PM.markAsPreview (PM.setActive (PM.openFileInLeaf s t.id f) t.id) t)
    ∧ PM.findLeaf (PM.markAsPreview (PM.setActive (PM.openFileInLeaf s t.id f) t.id) t) t.id =
        some ⟨t.id, t.panel, some f⟩
    ∧ (PM.markAsPreview (PM.setActive (PM.openFileInLeaf s t.id f) t.id) t).leaves.length =
        s.leaves.length := by
  have hleq : (PM.markAsPreview (PM.setActive (PM.openFileInLeaf s t.id f) t.id) t).leaves
      = s.leaves.map (updC t.id f) := by
    rw [markAsPreview_leaves, setActive_leaves, openFileInLeaf_leaves]
  have htlt : t.id < s.nextId := hwf.2.1 t ht
  have hupdt : updC t.id f t = ⟨t.id, t.panel, some f⟩ := by simp [updC]
  refine ⟨?_, ?_, ?_, ?_, ?_, ?_, ?_, ?_⟩
  · rw [hleq]
    exact List.mem_map.mpr ⟨t, ht, hupdt⟩
  · rw [markAsPreview_activeId, setActive_activeId]
  · rw [markAsPreview_previewByPanel]
    exact lookupPB_cons_self _ _ _
  · intro l hl hc
    rw [hleq] at hl
    rcases List.mem_map.mp hl with ⟨l0, hl0, rfl⟩
    by_cases hid : l0.id = t.id
    · have heq : l0 = t := eq_of_mem_of_nodup_ids hwf.1 hl0 ht hid
      rw [heq, hupdt]
    · have hc' : l0.content = some f := by
        unfold updC at hc
        rwa [if_neg hid] at hc
      exact absurd hc' (hf l0 hl0)
  · intro l hl g hg
    rw [hleq] at hl
    rcases List.mem_map.mp hl with ⟨l0, hl0, rfl⟩
    by_cases hid : l0.id = t.id
    · left
      unfold updC at hg
      rw [if_pos hid] at hg
      exact (Option.some.inj hg).symm
    · right
      unfold updC at hg
      rw [if_neg hid] at hg
      exact ⟨l0, hl0, hg⟩
  · exact WF_markAsPreview _ _ (WF_setActive _ _ (WF_openFileInLeaf _ _ _ hwf))
      (by rw [setActive_nextId, openFileInLeaf_nextId]; exact htlt)
  · rw [findLeaf_markAsPreview, findLeaf_setActive, findLeaf_openFileInLeaf,
      show PM.findLeaf s t.id = some t from find?_eq_of_nodup_mem hwf.1 ht]
    simp [hupdt]
  · rw [hleq, List.length_map]

/-- A browse open of fresh content lands it in exactly one leaf of the
active panel, which becomes the focused registered preview. -/
theorem browse_fresh (s : PM.PState) (a : PM.Leaf) (f : String)
    (hwf : PM.WF s) (hreg : PM.RegistryOK s)
    (ha : PM.findLeaf s s.activeId = some a)
    (hf : ∀ l ∈ s.leaves, l.content ≠ some f) :
    ∃ L : PM.Leaf,
      L.panel = a.panel ∧ L.content = some f
      ∧ L ∈ (PM.browseOpen s f).leaves
      ∧ (PM.browseOpen s f).activeId = L.id
      ∧ PM.lookupPB (PM.browseOpen s f).previewByPanel a.panel = some L.id
      ∧ (∀ l ∈ (PM.browseOpen s f).leaves, l.content = some f → l = L)
      ∧ (∀ l ∈ (PM.browseOpen s f).leaves, ∀ g, l.content = some g →
          g = f ∨ ∃ l0 ∈ s.leaves, l0.content = some g)
      ∧ PM.WF (PM.browseOpen s f)
      ∧ PM.findLeaf (PM.browseOpen s f) L.id = some L := by
  have hdupnone : PM.findLeafWithFileInPanel s f a.panel = none := by
    unfold PM.findLeafWithFileInPanel
    refine List.find?_eq_none.mpr ?_
    intro x hx
    simp only [decide_eq_true_eq]
    exact fun h => hf x hx h.1
  have hopen : PM.browseOpen s f = PM.handleSingleClickInPanel s f a := by
    unfold PM.browseOpen PM.openFileLogic
    rw [ha]
    dsimp only
    rw [hdupnone]
    simp only [ite_self]
    rfl
  rw [hopen]
  unfold PM.handleSingleClickInPanel
  dsimp only
  have hwf1 := WF_getPreview_fst s a.panel hwf
  have hl1 := getPreview_fst_leaves s a.panel
  have hf1 : ∀ l ∈ (PM.getPreviewLeafForPanel s a.panel).1.leaves, l.content ≠ some f := by
    rw [hl1]; exact hf
  have hamem : a ∈ s.leaves := List.mem_of_find?_eq_some ha
  split
  · rename_i pv hpv
    have hpvmem : pv ∈ s.leaves := getPreview_snd_mem s a.panel hpv
    have hpvpanel : pv.panel = a.panel := getPreview_snd_panel s a.panel hreg hpv
    split
    · -- Case A: reuse the active leaf, which is the panel preview
      obtain ⟨m1, m2, m3, m4, m5, m6, m7, _⟩ :=
        open_tail _ a f hwf1 (by rw [hl1]; exact hamem) hf1
      refine ⟨⟨a.id, a.panel, some f⟩, rfl, rfl, m1, m2, m3, m4, ?_, m6, m7⟩
      intro l hl g hg
      rcases m5 l hl g hg with h | ⟨l0, hl0, hc⟩
      · exact Or.inl h
      · rw [hl1] at hl0
        exact Or.inr ⟨l0, hl0, hc⟩
    · split
      · split
        · -- Case B, promoteOldPreview: open into the empty active leaf
          have hwf2 := WF_markAsPermanent _ pv hwf1
          have hl2 : (PM.markAsPermanent (PM.getPreviewLeafForPanel s a.panel).1 pv).leaves
              = s.leaves := by rw [markAsPermanent_leaves, hl1]
          obtain ⟨m1, m2, m3, m4, m5, m6, m7, _⟩ :=
            open_tail _ a f hwf2 (by rw [hl2]; exact hamem) (by rw [hl2]; exact hf)
          refine ⟨⟨a.id, a.panel, some f⟩, rfl, rfl, m1, m2, m3, m4, ?_, m6, m7⟩
          intro l hl g hg
          rcases m5 l hl g hg with h | ⟨l0, hl0, hc⟩
          · exact Or.inl h
          · rw [hl2] at hl0
            exact Or.inr ⟨l0, hl0, hc⟩
        · -- Case B, keep old preview: open into the preview leaf
          obtain ⟨m1, m2, m3, m4, m5, m6, m7, _⟩ :=
            open_tail _ pv f hwf1 (by rw [hl1]; exact hpvmem) hf1
          refine ⟨⟨pv.id, pv.panel, some f⟩, hpvpanel, rfl, m1, m2, ?_, m4, ?_, m6, m7⟩
          · rw [hpvpanel] at m3
            exact m3
          · intro l hl g hg
            rcases m5 l hl g hg with h | ⟨l0, hl0, hc⟩
            · exact Or.inl h
            · rw [hl1] at hl0
              exact Or.inr ⟨l0, hl0, hc⟩
      · -- Case C: reuse the live preview leaf
        obtain ⟨m1, m2, m3, m4, m5, m6, m7, _⟩ :=
          open_tail _ pv f hwf1 (by rw [hl1]; exact hpvmem) hf1
        refine ⟨⟨pv.id, pv.panel, some f⟩, hpvpanel, rfl, m1, m2, ?_, m4, ?_, m6, m7⟩
        · rw [hpvpanel] at m3
          exact m3
        · intro l hl g hg
          rcases m5 l hl g hg with h | ⟨l0, hl0, hc⟩
          · exact Or.inl h
          · rw [hl1] at hl0
            exact Or.inr ⟨l0, hl0, hc⟩
  · split
    · -- no live preview, empty active leaf: open in place
      obtain ⟨m1, m2, m3, m4, m5, m6, m7, _⟩ :=
        open_tail _ a f hwf1 (by rw [hl1]; exact hamem) hf1
      refine ⟨⟨a.id, a.panel, some f⟩, rfl, rfl, m1, m2, m3, m4, ?_, m6, m7⟩
      intro l hl g hg
      rcases m5 l hl g hg with h | ⟨l0, hl0, hc⟩
      · exact Or.inl h
      · rw [hl1] at hl0
        exact Or.inr ⟨l0, hl0, hc⟩
    · -- Case D: fresh preview tab in the panel
      have hwf2 := WF_createNewTab (PM.getPreviewLeafForPanel s a.panel).1 a hwf1
      obtain ⟨m1, m2, m3, m4, m5, m6, m7, _⟩ :=
        open_tail _ (PM.createNewTabInSamePanel (PM.getPreviewLeafForPanel s a.panel).1 a).2 f
          hwf2 (createNewTab_snd_mem _ a) (createNewTab_content_fresh _ a f hf1)
      refine ⟨⟨(PM.createNewTabInSamePanel (PM.getPreviewLeafForPanel s a.panel).1 a).2.id,
          (PM.createNewTabInSamePanel (PM.getPreviewLeafForPanel s a.panel).1 a).2.panel,
          some f⟩, createNewTab_snd_panel (PM.getPreviewLeafForPanel s a.panel).1 a, rfl,
          m1, m2, ?_, m4, ?_, m6, m7⟩
      · rw [createNewTab_snd_panel (PM.getPreviewLeafForPanel s a.panel).1 a] at m3
        exact m3
      · intro l hl g hg
        rcases m5 l hl g hg with h | ⟨l0, hl0, hc⟩
        · exact Or.inl h
        · rcases createNewTab_fst_mem _ a hl0 with rfl | hl0
          · simp at hc
          · rw [hl1] at hl0
            exact Or.inr ⟨l0, hl0, hc⟩

/-- A browse open that finds the active leaf to be the panel's registered
preview (Case A) reduces to opening in place. -/
theorem browse_reuse_self (s : PM.PState) (t : PM.Leaf) (f : String)
    (ha : PM.findLeaf s s.activeId = some t)
    (hreg : PM.lookupPB s.previewByPanel t.panel = some t.id)
    (hf : ∀ l ∈ s.leaves, l.content ≠ some f) :
    PM.browseOpen s f =
      PM.markAsPreview (PM.setActive (PM.openFileInLeaf s t.id f) t.id) t := by
  have hdupnone : PM.findLeafWithFileInPanel s f t.panel = none := by
    unfold PM.findLeafWithFileInPanel
    refine List.find?_eq_none.mpr ?_
    intro x hx
    simp only [decide_eq_true_eq]
    exact fun h => hf x hx h.1
  have hopen : PM.browseOpen s f = PM.handleSingleClickInPanel s f t := by
    unfold PM.browseOpen PM.openFileLogic
    rw [ha]
    dsimp only
    rw [hdupnone]
    simp only [ite_self]
    rfl
  rw [hopen]
  unfold PM.handleSingleClickInPanel
  have hfind_t : PM.findLeaf s t.id = some t := by
    have htid : t.id = s.activeId := by simpa using List.find?_some ha
    rw [htid]
    exact ha
  have hpr : PM.getPreviewLeafForPanel s t.panel = (s, some t) := by
    unfold PM.getPreviewLeafForPanel
    rw [hreg]
    dsimp only
    rw [hfind_t]
  rw [hpr]
  dsimp only
  rw [if_pos rfl]

/-- C2: browse-opening fresh content A and then fresh content B from the
same panel leaves exactly one tab holding B; that tab is the panel's sole
registered preview and is focused; A is no longer open anywhere; and the
second open created no tab. -/
theorem c2_browse_round_trip (s : PM.PState) (a : PM.Leaf) (A B : String)
    (hwf : PM.WF s) (hreg : PM.RegistryOK s)
    (ha : PM.findLeaf s s.activeId = some a)
    (hAB : A ≠ B)
    (hA : ∀ l ∈ s.leaves, l.content ≠ some A)
    (hB : ∀ l ∈ s.leaves, l.content ≠ some B) :
    ∃ L : PM.Leaf,
      L ∈ (PM.browseOpen (PM.browseOpen s A) B).leaves
      ∧ L.panel = a.panel ∧ L.content = some B
      ∧ (∀ l ∈ (PM.browseOpen (PM.browseOpen s A) B).leaves, l.content = some B → l = L)
      ∧ PM.lookupPB (PM.browseOpen (PM.browseOpen s A) B).previewByPanel a.panel = some L.id
      ∧ PM.isPanelPreviewLeaf (PM.browseOpen (PM.browseOpen s A) B) L = true
      ∧ (∀ l ∈ (PM.browseOpen (PM.browseOpen s A) B).leaves, l.content ≠ some A)
      ∧ (PM.browseOpen (PM.browseOpen s A) B).leaves.length =
          (PM.browseOpen s A).leaves.length
      ∧ (PM.browseOpen (PM.browseOpen s A) B).activeId = L.id
      ∧ (∀ p, PM.previewCount (PM.browseOpen (PM.browseOpen s A) B) p ≤ 1) := by
  obtain ⟨L1, hp1, hc1, hmem1, hact1, hlk1, huniq1, hsub1, hwf1, hfind1⟩ :=
    browse_fresh s a A hwf hreg ha hA
  have hB1 : ∀ l ∈ (PM.browseOpen s A).leaves, l.content ≠ some B := by
    intro l hl hcon
    rcases hsub1 l hl B hcon with h | ⟨l0, hl0, hc⟩
    · exact hAB h.symm
    · exact hB l0 hl0 hc
  have hact1' : PM.findLeaf (PM.browseOpen s A) (PM.browseOpen s A).activeId = some L1 := by
    rw [hact1]
    exact hfind1
  have hreg1 : PM.lookupPB (PM.browseOpen s A).previewByPanel L1.panel = some L1.id := by
    rw [hp1]
    exact hlk1
  have hstep2 := browse_reuse_self (PM.browseOpen s A) L1 B hact1' hreg1 hB1
  obtain ⟨m1, m2, m3, m4, m5, m6, m7, m8⟩ := open_tail (PM.browseOpen s A) L1 B hwf1 hmem1 hB1
  rw [hstep2]
  refine ⟨⟨L1.id, L1.panel, some B⟩, m1, hp1, rfl, m4, ?_, ?_, ?_, m8, m2, ?_⟩
  · rw [← hp1]
    exact m3
  · unfold PM.isPanelPreviewLeaf
    rw [m3]
    simp
  · intro l hl hconA
    have hleq : (PM.markAsPreview (PM.setActive
        (PM.openFileInLeaf (PM.browseOpen s A) L1.id B) L1.id) L1).leaves
        = (PM.browseOpen s A).leaves.map (updC L1.id B) := by
      rw [markAsPreview_leaves, setActive_leaves, openFileInLeaf_leaves]
    rw [hleq] at hl
    rcases List.mem_map.mp hl with ⟨l0, hl0, rfl⟩
    by_cases hid : l0.id = L1.id
    · have hcB : (updC L1.id B l0).content = some B := by
        unfold updC
        rw [if_pos hid]
      rw [hcB] at hconA
      exact hAB (Option.some.inj hconA).symm
    · have heq : updC L1.id B l0 = l0 := by
        unfold updC
        rw [if_neg hid]
      rw [heq] at hconA
      have : l0 = L1 := huniq1 l0 hl0 hconA
      exact hid (by rw [this])
  · intro p
    exact previewCount_le_one _ m6 p

/-- C2 witness: the round-trip applied to a panel with one empty tab —
after browsing `a.md` then `b.md`, one tab holds `b.md` as the sole focused
preview, `a.md` is gone, and the second open created no tab. -/
theorem c2_witness :
    ∃ L : PM.Leaf,
      L ∈ (PM.browseOpen (PM.browseOpen ⟨[⟨1, 0, none⟩], [], [], 1, 2, none,
          PM.DEFAULT_SETTINGS⟩ "a.md") "b.md").leaves
      ∧ L.panel = (⟨1, 0, none⟩ : PM.Leaf).panel ∧ L.content = some "b.md"
      ∧ (∀ l ∈ (PM.browseOpen (PM.browseOpen ⟨[⟨1, 0, none⟩], [], [], 1, 2, none,
          PM.DEFAULT_SETTINGS⟩ "a.md") "b.md").leaves, l.content = some "b.md" → l = L)
      ∧ PM.lookupPB (PM.browseOpen (PM.browseOpen ⟨[⟨1, 0, none⟩], [], [], 1, 2, none,
          PM.DEFAULT_SETTINGS⟩ "a.md") "b.md").previewByPanel
          (⟨1, 0, none⟩ : PM.Leaf).panel = some L.id
      ∧ PM.isPanelPreviewLeaf (PM.browseOpen (PM.browseOpen ⟨[⟨1, 0, none⟩], [], [], 1, 2, none,
          PM.DEFAULT_SETTINGS⟩ "a.md") "b.md") L = true
      ∧ (∀ l ∈ (PM.browseOpen (PM.browseOpen ⟨[⟨1, 0, none⟩], [], [], 1, 2, none,
          PM.DEFAULT_SETTINGS⟩ "a.md") "b.md").leaves, l.content ≠ some "a.md")
      ∧ (PM.browseOpen (PM.browseOpen ⟨[⟨1, 0, none⟩], [], [], 1, 2, none,
          PM.DEFAULT_SETTINGS⟩ "a.md") "b.md").leaves.length =
          (PM.browseOpen ⟨[⟨1, 0, none⟩], [], [], 1, 2, none,
            PM.DEFAULT_SETTINGS⟩ "a.md").leaves.length
      ∧ (PM.browseOpen (PM.browseOpen ⟨[⟨1, 0, none⟩], [], [], 1, 2, none,
          PM.DEFAULT_SETTINGS⟩ "a.md") "b.md").activeId = L.id
      ∧ (∀ p, PM.previewCount (PM.browseOpen (PM.browseOpen ⟨[⟨1, 0, none⟩], [], [], 1, 2, none,
          PM.DEFAULT_SETTINGS⟩ "a.md") "b.md") p ≤ 1) :=
  c2_browse_round_trip ⟨[⟨1, 0, none⟩], [], [], 1, 2, none, PM.DEFAULT_SETTINGS⟩ ⟨1, 0, none⟩
    "a.md" "b.md" (by decide) (by decide) (by decide) (by decide) (by decide) (by decide)

